import Mathlib

/-!
Verification of the revenar-lang lexer (src/interpreter/lexer/lexer.c and
src/shared/lexer/lexer.c) against its natural-language specification.

The source buffer is modelled as a `List Char` holding the bytes in front of
the NUL terminator; reading at or past the end of the list yields the
terminator byte `'\x00'`, exactly as a C read of a NUL-terminated buffer does.
The global `Scanner` struct (`start`, `current`, `line`) becomes an explicit
state record threaded through every operation.  The two C while-loops with
several exit conditions (`skipWhitespace`, `isStringLiteral`) are translated
with an explicit fuel parameter; `src.length + 1` fuel always suffices, and
the canonical wrappers fix that amount.  Simple single-predicate loops
("consume a maximal run") are translated by their `takeWhile` denotation.
-/

namespace Rev

/-- The NUL terminator byte of the C source buffer. -/
def NUL : Char := Char.ofNat 0

/-- Opening brace byte, written via its code point. -/
def lbrace : Char := Char.ofNat 123

/-- Closing brace byte, written via its code point. -/
def rbrace : Char := Char.ofNat 125

/-- Reading byte `i` of the NUL-terminated buffer: positions at or past the
end of the content read the terminator. -/
def byteAt (src : List Char) (i : Nat) : Char := src.getD i NUL

/-- Token kinds: the union of the `TokenType` enumerators used by the two
lexer snapshots (`TOKEN_QUESTION` appears only in the shared one). -/
inductive TokenType where
  | LEFT_PAREN | RIGHT_PAREN | LEFT_BRACE | RIGHT_BRACE
  | LEFT_BRACKET | RIGHT_BRACKET | COMMA | COLON | SEMICOLON | QUESTION
  | DOT | DOT_DOT
  | PLUS | PLUS_EQUAL | STAR | STAR_EQUAL | SLASH | SLASH_EQUAL
  | PERCENT | PERCENT_EQUAL | MINUS | MINUS_EQUAL | ARROW
  | EQUAL | EQUAL_EQUAL | BANG | BANG_EQUAL
  | LESS | LESS_EQUAL | LEFT_SHIFT | GREATER | GREATER_EQUAL | RIGHT_SHIFT
  | AND | BIT_AND | OR | BIT_OR | BIT_XOR | BIT_NOT
  | CHAR_LITERAL | STRING_LITERAL | INT_LITERAL | FLOAT_LITERAL
  | IDENTIFIER
  | BOOL | BREAK | CHAR | CONST | CONTINUE | DO | ELSE | FALSE | FN | FOR
  | F32 | F64 | IF | IN | I8 | I16 | I32 | I64 | LOOP | MATCH | MUT
  | NULL | RETURN | STRING | TRUE | U8 | U16 | U32 | U64 | VOID | WHILE
  | ERROR | EOF
  deriving DecidableEq, Repr

/-- The C token's `start` field is a bare `const char*` that either points
into the source buffer (`createToken`) or at a static diagnostic message
(`errorToken`); the model keeps the distinction explicit. -/
inductive TokenStart where
  | buf (off : Nat)
  | msg (text : List Char)
  deriving DecidableEq, Repr

/-- The C `Token` struct: kind, start pointer, length, line. -/
structure Token where
  token : TokenType
  start : TokenStart
  length : Nat
  line : Nat
  deriving DecidableEq, Repr

/-- The C `Scanner` struct: `start` and `current` as offsets into the
buffer, plus the 1-based `line` counter. -/
structure Scanner where
  start : Nat
  current : Nat
  line : Nat
  deriving DecidableEq, Repr

/-- C `isAtEnd`: the current byte is the terminator. -/
def isAtEnd (src : List Char) (s : Scanner) : Bool := byteAt src s.current == NUL

/-- C `advance` as a state transformer: moves `current` forward unless the
scanner sits on the terminator.  (The returned character is always
`byteAt src s.current`; call sites read it separately.) -/
def adv (src : List Char) (s : Scanner) : Scanner :=
  if isAtEnd src s then s else { s with current := s.current + 1 }

/-- C `peek`: the current byte, not consumed. -/
def peek (src : List Char) (s : Scanner) : Char := byteAt src s.current

/-- C `peekNext` of the interpreter lexer: returns `'\0'` only when both the
current byte and the byte after it are `'\0'`; otherwise it returns the byte
after the current one. -/
def peekNext (src : List Char) (s : Scanner) : Char :=
  if byteAt src s.current = NUL ∧ byteAt src (s.current + 1) = NUL then NUL
  else byteAt src (s.current + 1)

/-- C `match`: consume the current byte only if it equals `expected`. -/
def matchCh (src : List Char) (expected : Char) (s : Scanner) : Bool × Scanner :=
  if isAtEnd src s then (false, s)
  else if byteAt src s.current ≠ expected then (false, s)
  else (true, { s with current := s.current + 1 })

/-- C `isDigit`. -/
def isDigit (c : Char) : Bool := '0' ≤ c && c ≤ '9'

/-- C `isAlpha`: letters and underscore. -/
def isAlpha (c : Char) : Bool :=
  ('a' ≤ c && c ≤ 'z') || ('A' ≤ c && c ≤ 'Z') || c == '_'

/-- C `createToken`: kind, pointer to `scanner.start`, length
`current - start`, current line. -/
def createToken (tokenType : TokenType) (s : Scanner) : Token :=
  { token := tokenType, start := .buf s.start, length := s.current - s.start,
    line := s.line }

/-- C `errorToken`: the `TOKEN_ERROR` kind with the message as payload and
`strlen(message)` as length. -/
def errorToken (message : List Char) (s : Scanner) : Token :=
  { token := .ERROR, start := .msg message, length := message.length,
    line := s.line }

/-- Diagnostic message of the empty character literal. -/
def msgEmptyChar : List Char := "Empty character literal.".toList

/-- Diagnostic message of an invalid escape in a character literal. -/
def msgInvalidEscapeChar : List Char :=
  "Invalid escape sequence in character literal.".toList

/-- Diagnostic message of an overlong character literal. -/
def msgCharTooLong : List Char :=
  "Character literal must contain exactly one character.".toList

/-- Diagnostic message of an invalid escape in a string literal. -/
def msgInvalidEscape : List Char := "Invalid escape sequence.".toList

/-- Diagnostic message of an unterminated string literal. -/
def msgUnterminated : List Char := "Unterminated string".toList

/-- Diagnostic message of a backslash at end-of-input (shared lexer only). -/
def msgUntermEscape : List Char := "Unterminated string after escape.".toList

/-- Diagnostic message of an unrecognized dispatch character. -/
def msgUnexpected : List Char := "Unexpected character.".toList

/-- The fixed escape set shared by the char- and string-literal scanners. -/
def isEscapeChar (c : Char) : Bool :=
  c == '\'' || c == '"' || c == '\\' || c == 'n' || c == lbrace ||
  c == rbrace || c == 't' || c == 'r' || c == '0'

/-- Length of the run consumed by the comment loop
`while (!isAtEnd() && peek() != '\n') advance();` starting at offset `i`. -/
def commentRun (src : List Char) (i : Nat) : Nat :=
  ((src.drop i).takeWhile (fun ch => !(ch == NUL) && !(ch == '\n'))).length

/-- C `skipWhitespace` of the interpreter lexer, with explicit fuel for the
outer loop; one unit of fuel per iteration, `src.length + 1` always
suffices. -/
def skipWhitespaceF (src : List Char) : Nat → Scanner → Scanner
  | 0, s => s
  | fuel + 1, s =>
    if byteAt src s.current = ' ' ∨ byteAt src s.current = '\t' ∨
        byteAt src s.current = '\r' then
      skipWhitespaceF src fuel (adv src s)
    else if byteAt src s.current = '\n' then
      skipWhitespaceF src fuel (adv src { s with line := s.line + 1 })
    else if byteAt src s.current = '/' then
      if peekNext src s = '/' then
        skipWhitespaceF src fuel
          { s with current := s.current + 2 + commentRun src (s.current + 2) }
      else s
    else s

/-- C `skipWhitespace` with its canonical (always sufficient) fuel. -/
def skipWhitespace (src : List Char) (s : Scanner) : Scanner :=
  skipWhitespaceF src (src.length + 1) s

/-- C `isCharLiteral` (identical in both lexer snapshots): called with the
opening quote already consumed. -/
def isCharLiteral (src : List Char) (s : Scanner) : Token × Scanner :=
  if peek src s = '\'' then (errorToken msgEmptyChar s, s)
  else if peek src s = '\\' then
    let s1 := adv src s
    if isEscapeChar (peek src s1) then
      let s2 := adv src s1
      if peek src s2 = '\'' then
        let s3 := adv src s2
        (createToken .CHAR_LITERAL s3, s3)
      else (errorToken msgCharTooLong s2, s2)
    else (errorToken msgInvalidEscapeChar s1, s1)
  else
    let s1 := adv src s
    if peek src s1 = '\'' then
      let s2 := adv src s1
      (createToken .CHAR_LITERAL s2, s2)
    else (errorToken msgCharTooLong s1, s1)

/-- C `isStringLiteral` of the interpreter lexer, with explicit fuel for the
scanning loop.  Note: after consuming a backslash it inspects the next byte
directly, so a backslash at end-of-input falls into the invalid-escape
branch. -/
def isStringLiteralF (src : List Char) : Nat → Scanner → Token × Scanner
  | 0, s => (errorToken msgUnterminated s, s)
  | fuel + 1, s =>
    if peek src s ≠ '"' ∧ ¬ isAtEnd src s then
      let s1 := if peek src s = '\n' then { s with line := s.line + 1 } else s
      if peek src s1 = '\\' then
        let s2 := adv src s1
        if isEscapeChar (peek src s2) then isStringLiteralF src fuel (adv src s2)
        else (errorToken msgInvalidEscape s2, s2)
      else isStringLiteralF src fuel (adv src s1)
    else if isAtEnd src s then (errorToken msgUnterminated s, s)
    else
      let s1 := adv src s
      (createToken .STRING_LITERAL s1, s1)

/-- Interpreter `isStringLiteral` with its canonical fuel. -/
def isStringLiteral (src : List Char) (s : Scanner) : Token × Scanner :=
  isStringLiteralF src (src.length + 1) s

/-- Length of a maximal digit run starting at offset `i`
(`while (isDigit(peek())) advance();`). -/
def digitRun (src : List Char) (i : Nat) : Nat :=
  ((src.drop i).takeWhile (fun ch => isDigit ch)).length

/-- C `isNumberLiteral` (the digit loops rendered by their run lengths);
uses the interpreter `peekNext` for the fractional-part lookahead. -/
def isNumberLiteral (src : List Char) (s : Scanner) : Token × Scanner :=
  let s1 : Scanner := { s with current := s.current + digitRun src s.current }
  if byteAt src s1.current = '.' ∧ isDigit (peekNext src s1) then
    let s2 := adv src s1
    let s3 : Scanner := { s2 with current := s2.current + digitRun src s2.current }
    (createToken .FLOAT_LITERAL s3, s3)
  else (createToken .INT_LITERAL s1, s1)

/-- C `checkKeyword`: exact-length check plus `memcmp` of the trailing
bytes, rendered as a slice comparison. -/
def checkKeyword (src : List Char) (s : Scanner) (off len : Nat)
    (rest : List Char) (type : TokenType) : TokenType :=
  if s.current - s.start = off + len ∧
      ((src.drop (s.start + off)).take len) = rest then type
  else .IDENTIFIER

/-- C `identifierType` of the interpreter lexer: the hand-rolled keyword
trie.  The `'b'` case tests `scanner.current > scanner.start - 1` in the
source (all other cases test `current - start > 1`); it is kept verbatim,
with `-` as truncated `Nat` subtraction. -/
def identifierType (src : List Char) (s : Scanner) : TokenType :=
  if byteAt src s.start = 'b' then
    (if s.current > s.start - 1 then
      (if byteAt src (s.start + 1) = 'o' then checkKeyword src s 2 2 ['o', 'l'] .BOOL
       else if byteAt src (s.start + 1) = 'r' then
         checkKeyword src s 2 3 ['e', 'a', 'k'] .BREAK
       else .IDENTIFIER)
     else .IDENTIFIER)
  else if byteAt src s.start = 'c' then
    (if s.current - s.start > 1 then
      (if byteAt src (s.start + 1) = 'h' then checkKeyword src s 2 2 ['a', 'r'] .CHAR
       else if byteAt src (s.start + 1) = 'o' then
         (if s.current - s.start > 2 ∧ byteAt src (s.start + 2) = 'n' then
           (if s.current - s.start > 3 then
             (if byteAt src (s.start + 3) = 's' then
               checkKeyword src s 4 1 ['t'] .CONST
              else if byteAt src (s.start + 3) = 't' then
               checkKeyword src s 4 4 ['i', 'n', 'u', 'e'] .CONTINUE
              else .IDENTIFIER)
            else .IDENTIFIER)
          else .IDENTIFIER)
       else .IDENTIFIER)
     else .IDENTIFIER)
  else if byteAt src s.start = 'd' then checkKeyword src s 1 1 ['o'] .DO
  else if byteAt src s.start = 'e' then checkKeyword src s 1 3 ['l', 's', 'e'] .ELSE
  else if byteAt src s.start = 'f' then
    (if s.current - s.start > 1 then
      (if byteAt src (s.start + 1) = 'a' then
        checkKeyword src s 2 3 ['l', 's', 'e'] .FALSE
       else if byteAt src (s.start + 1) = 'n' then checkKeyword src s 2 0 [] .FN
       else if byteAt src (s.start + 1) = 'o' then checkKeyword src s 2 1 ['r'] .FOR
       else if byteAt src (s.start + 1) = '3' then checkKeyword src s 2 1 ['2'] .F32
       else if byteAt src (s.start + 1) = '6' then checkKeyword src s 2 1 ['4'] .F64
       else .IDENTIFIER)
     else .IDENTIFIER)
  else if byteAt src s.start = 'i' then
    (if s.current - s.start > 1 then
      (if byteAt src (s.start + 1) = 'f' then checkKeyword src s 2 0 [] .IF
       else if byteAt src (s.start + 1) = 'n' then checkKeyword src s 2 0 [] .IN
       else if byteAt src (s.start + 1) = '8' then checkKeyword src s 2 0 [] .I8
       else if byteAt src (s.start + 1) = '1' then checkKeyword src s 2 1 ['6'] .I16
       else if byteAt src (s.start + 1) = '3' then checkKeyword src s 2 1 ['2'] .I32
       else if byteAt src (s.start + 1) = '6' then checkKeyword src s 2 1 ['4'] .I64
       else .IDENTIFIER)
     else .IDENTIFIER)
  else if byteAt src s.start = 'l' then checkKeyword src s 1 3 ['o', 'o', 'p'] .LOOP
  else if byteAt src s.start = 'm' then
    (if s.current - s.start > 1 then
      (if byteAt src (s.start + 1) = 'a' then
        checkKeyword src s 2 3 ['t', 'c', 'h'] .MATCH
       else if byteAt src (s.start + 1) = 'u' then checkKeyword src s 2 1 ['t'] .MUT
       else .IDENTIFIER)
     else .IDENTIFIER)
  else if byteAt src s.start = 'n' then checkKeyword src s 1 3 ['u', 'l', 'l'] .NULL
  else if byteAt src s.start = 'r' then
    checkKeyword src s 1 5 ['e', 't', 'u', 'r', 'n'] .RETURN
  else if byteAt src s.start = 's' then
    checkKeyword src s 1 5 ['t', 'r', 'i', 'n', 'g'] .STRING
  else if byteAt src s.start = 't' then checkKeyword src s 1 3 ['r', 'u', 'e'] .TRUE
  else if byteAt src s.start = 'u' then
    (if s.current - s.start > 1 then
      (if byteAt src (s.start + 1) = '8' then checkKeyword src s 2 0 [] .U8
       else if byteAt src (s.start + 1) = '1' then checkKeyword src s 2 1 ['6'] .U16
       else if byteAt src (s.start + 1) = '3' then checkKeyword src s 2 1 ['2'] .U32
       else if byteAt src (s.start + 1) = '6' then checkKeyword src s 2 1 ['4'] .U64
       else .IDENTIFIER)
     else .IDENTIFIER)
  else if byteAt src s.start = 'v' then
    checkKeyword src s 1 3 ['o', 'i', 'd'] .VOID
  else if byteAt src s.start = 'w' then
    checkKeyword src s 1 4 ['h', 'i', 'l', 'e'] .WHILE
  else .IDENTIFIER

/-- Length of a maximal identifier run
(`while (isAlpha(peek()) || isDigit(peek())) advance();`). -/
def identRun (src : List Char) (i : Nat) : Nat :=
  ((src.drop i).takeWhile (fun ch => isAlpha ch || isDigit ch)).length

/-- C `isIdentifier` of the interpreter lexer. -/
def isIdentifier (src : List Char) (s : Scanner) : Token × Scanner :=
  let s1 : Scanner := { s with current := s.current + identRun src s.current }
  (createToken (identifierType src s1) s1, s1)

/-- A `createToken(match(expected) ? two : one)` branch of the dispatch
switch. -/
def opPair (src : List Char) (expected : Char) (two one : TokenType)
    (s : Scanner) : Token × Scanner :=
  let r := matchCh src expected s
  (createToken (if r.1 then two else one) r.2, r.2)

/-- A `createToken(match(a) ? tA : match(b) ? tB : tBare)` branch of the
dispatch switch. -/
def opTriple (src : List Char) (a : Char) (tA : TokenType) (b : Char)
    (tB tBare : TokenType) (s : Scanner) : Token × Scanner :=
  let r1 := matchCh src a s
  if r1.1 then (createToken tA r1.2, r1.2)
  else
    let r2 := matchCh src b r1.2
    (createToken (if r2.1 then tB else tBare) r2.2, r2.2)

/-- The switch of the interpreter `scanToken` on the dispatched character
`c`, with `s2` the state right after `advance()` consumed `c`.  The
interpreter snapshot has no `'?'` case, so `'?'` falls into the default
branch. -/
def dispatchOn (src : List Char) (c : Char) (s2 : Scanner) : Token × Scanner :=
  if c = '(' then (createToken .LEFT_PAREN s2, s2)
  else if c = ')' then (createToken .RIGHT_PAREN s2, s2)
  else if c = lbrace then (createToken .LEFT_BRACE s2, s2)
  else if c = rbrace then (createToken .RIGHT_BRACE s2, s2)
  else if c = '[' then (createToken .LEFT_BRACKET s2, s2)
  else if c = ']' then (createToken .RIGHT_BRACKET s2, s2)
  else if c = ',' then (createToken .COMMA s2, s2)
  else if c = ':' then (createToken .COLON s2, s2)
  else if c = ';' then (createToken .SEMICOLON s2, s2)
  else if c = '.' then opPair src '.' .DOT_DOT .DOT s2
  else if c = '+' then opPair src '=' .PLUS_EQUAL .PLUS s2
  else if c = '*' then opPair src '=' .STAR_EQUAL .STAR s2
  else if c = '/' then opPair src '=' .SLASH_EQUAL .SLASH s2
  else if c = '%' then opPair src '=' .PERCENT_EQUAL .PERCENT s2
  else if c = '-' then opTriple src '>' .ARROW '=' .MINUS_EQUAL .MINUS s2
  else if c = '=' then opPair src '=' .EQUAL_EQUAL .EQUAL s2
  else if c = '!' then opPair src '=' .BANG_EQUAL .BANG s2
  else if c = '<' then opTriple src '<' .LEFT_SHIFT '=' .LESS_EQUAL .LESS s2
  else if c = '>' then opTriple src '>' .RIGHT_SHIFT '=' .GREATER_EQUAL .GREATER s2
  else if c = '&' then opPair src '&' .AND .BIT_AND s2
  else if c = '|' then opPair src '|' .OR .BIT_OR s2
  else if c = '^' then (createToken .BIT_XOR s2, s2)
  else if c = '~' then (createToken .BIT_NOT s2, s2)
  else if c = '\'' then isCharLiteral src s2
  else if c = '"' then isStringLiteral src s2
  else if isDigit c then isNumberLiteral src s2
  else if isAlpha c then isIdentifier src s2
  else (errorToken msgUnexpected s2, s2)

/-- C `scanToken` of the interpreter lexer: skip whitespace, mark the token
start, emit `TOKEN_EOF` at the terminator, otherwise consume one byte and
dispatch on it. -/
def scanToken (src : List Char) (s : Scanner) : Token × Scanner :=
  let s0 := skipWhitespace src s
  let s1 : Scanner := { s0 with start := s0.current }
  if isAtEnd src s1 then (createToken .EOF s1, s1)
  else dispatchOn src (peek src s1) (adv src s1)

/-- The scanner state after `n` further `scanToken` calls. -/
def scanState (src : List Char) : Nat → Scanner → Scanner
  | 0, s => s
  | n + 1, s => scanState src n (scanToken src s).2

/-- The bytes of the buffer from offset `a` (inclusive) to `b` (exclusive). -/
def slice (src : List Char) (a b : Nat) : List Char := (src.drop a).take (b - a)

/-- Number of `'\n'` bytes in the buffer region `[a, b)`. -/
def countNL (src : List Char) (a b : Nat) : Nat :=
  (slice src a b).countP (fun ch => ch == '\n')

/-- Reconstruction of the buffer from the token spans that `scanToken`
reports plus the whitespace/comment gap in front of each token: each call
contributes the region skipped before the token (from the pre-call cursor to
the reported span start) followed by the reported span itself, up to and
including the Eof token.  An error token reports a diagnostic message
instead of a buffer span, so no reconstruction exists (`none`). -/
def coverage (src : List Char) : Nat → Scanner → Option (List Char)
  | 0, _ => none
  | fuel + 1, s =>
    let r := scanToken src s
    match r.1.start with
    | .msg _ => none
    | .buf b =>
      let piece := slice src s.current b ++ slice src b (b + r.1.length)
      if r.1.token = .EOF then some piece
      else
        match coverage src fuel r.2 with
        | none => none
        | some rest => some (piece ++ rest)

/-- Exact-match reserved-word table, written from the specification's words:
an identifier-shaped lexeme is a keyword exactly when it is
character-for-character equal to one of the fixed reserved words. -/
def keywordSpec (lex : List Char) : TokenType :=
  if lex = ['b', 'o', 'o', 'l'] then .BOOL
  else if lex = ['b', 'r', 'e', 'a', 'k'] then .BREAK
  else if lex = ['c', 'h', 'a', 'r'] then .CHAR
  else if lex = ['c', 'o', 'n', 's', 't'] then .CONST
  else if lex = ['c', 'o', 'n', 't', 'i', 'n', 'u', 'e'] then .CONTINUE
  else if lex = ['d', 'o'] then .DO
  else if lex = ['e', 'l', 's', 'e'] then .ELSE
  else if lex = ['f', 'a', 'l', 's', 'e'] then .FALSE
  else if lex = ['f', 'n'] then .FN
  else if lex = ['f', 'o', 'r'] then .FOR
  else if lex = ['f', '3', '2'] then .F32
  else if lex = ['f', '6', '4'] then .F64
  else if lex = ['i', 'f'] then .IF
  else if lex = ['i', 'n'] then .IN
  else if lex = ['i', '8'] then .I8
  else if lex = ['i', '1', '6'] then .I16
  else if lex = ['i', '3', '2'] then .I32
  else if lex = ['i', '6', '4'] then .I64
  else if lex = ['l', 'o', 'o', 'p'] then .LOOP
  else if lex = ['m', 'a', 't', 'c', 'h'] then .MATCH
  else if lex = ['m', 'u', 't'] then .MUT
  else if lex = ['n', 'u', 'l', 'l'] then .NULL
  else if lex = ['r', 'e', 't', 'u', 'r', 'n'] then .RETURN
  else if lex = ['s', 't', 'r', 'i', 'n', 'g'] then .STRING
  else if lex = ['t', 'r', 'u', 'e'] then .TRUE
  else if lex = ['u', '8'] then .U8
  else if lex = ['u', '1', '6'] then .U16
  else if lex = ['u', '3', '2'] then .U32
  else if lex = ['u', '6', '4'] then .U64
  else if lex = ['v', 'o', 'i', 'd'] then .VOID
  else if lex = ['w', 'h', 'i', 'l', 'e'] then .WHILE
  else .IDENTIFIER

/-!
The shared lexer snapshot (src/shared/lexer/lexer.c).  It differs from the
interpreter snapshot in four places: `peekNext` guards with `isAtEnd`
instead of inspecting two bytes; `isStringLiteral` checks `isAtEnd` right
after consuming a backslash and reports "Unterminated string after
escape."; `scanToken` has a `'?'` case producing `TOKEN_QUESTION`; and the
`'b'` case of `identifierType` tests `current - start > 1`.  All other
functions are textually identical and are reused.
-/

/-- C `peekNext` of the shared lexer: the byte after the current one, or the
sentinel when the scanner is at the end. -/
def sharedPeekNext (src : List Char) (s : Scanner) : Char :=
  if isAtEnd src s then NUL else byteAt src (s.current + 1)

/-- C `skipWhitespace` of the shared lexer (uses the shared `peekNext`). -/
def sharedSkipWhitespaceF (src : List Char) : Nat → Scanner → Scanner
  | 0, s => s
  | fuel + 1, s =>
    if byteAt src s.current = ' ' ∨ byteAt src s.current = '\t' ∨
        byteAt src s.current = '\r' then
      sharedSkipWhitespaceF src fuel (adv src s)
    else if byteAt src s.current = '\n' then
      sharedSkipWhitespaceF src fuel (adv src { s with line := s.line + 1 })
    else if byteAt src s.current = '/' then
      if sharedPeekNext src s = '/' then
        sharedSkipWhitespaceF src fuel
          { s with current := s.current + 2 + commentRun src (s.current + 2) }
      else s
    else s

/-- Shared `skipWhitespace` with its canonical fuel. -/
def sharedSkipWhitespace (src : List Char) (s : Scanner) : Scanner :=
  sharedSkipWhitespaceF src (src.length + 1) s

/-- C `isStringLiteral` of the shared lexer: after consuming a backslash it
first checks `isAtEnd`, reporting "Unterminated string after escape.". -/
def sharedIsStringLiteralF (src : List Char) : Nat → Scanner → Token × Scanner
  | 0, s => (errorToken msgUnterminated s, s)
  | fuel + 1, s =>
    if peek src s ≠ '"' ∧ ¬ isAtEnd src s then
      let s1 := if peek src s = '\n' then { s with line := s.line + 1 } else s
      if peek src s1 = '\\' then
        let s2 := adv src s1
        if isAtEnd src s2 then (errorToken msgUntermEscape s2, s2)
        else if isEscapeChar (peek src s2) then
          sharedIsStringLiteralF src fuel (adv src s2)
        else (errorToken msgInvalidEscape s2, s2)
      else sharedIsStringLiteralF src fuel (adv src s1)
    else if isAtEnd src s then (errorToken msgUnterminated s, s)
    else
      let s1 := adv src s
      (createToken .STRING_LITERAL s1, s1)

/-- Shared `isStringLiteral` with its canonical fuel. -/
def sharedIsStringLiteral (src : List Char) (s : Scanner) : Token × Scanner :=
  sharedIsStringLiteralF src (src.length + 1) s

/-- C `isNumberLiteral` of the shared lexer (uses the shared `peekNext`). -/
def sharedIsNumberLiteral (src : List Char) (s : Scanner) : Token × Scanner :=
  let s1 : Scanner := { s with current := s.current + digitRun src s.current }
  if byteAt src s1.current = '.' ∧ isDigit (sharedPeekNext src s1) then
    let s2 := adv src s1
    let s3 : Scanner := { s2 with current := s2.current + digitRun src s2.current }
    (createToken .FLOAT_LITERAL s3, s3)
  else (createToken .INT_LITERAL s1, s1)

/-- C `identifierType` of the shared lexer: identical to the interpreter one
except that the `'b'` case tests `scanner.current - scanner.start > 1`. -/
def sharedIdentifierType (src : List Char) (s : Scanner) : TokenType :=
  if byteAt src s.start = 'b' then
    (if s.current - s.start > 1 then
      (if byteAt src (s.start + 1) = 'o' then checkKeyword src s 2 2 ['o', 'l'] .BOOL
       else if byteAt src (s.start + 1) = 'r' then
         checkKeyword src s 2 3 ['e', 'a', 'k'] .BREAK
       else .IDENTIFIER)
     else .IDENTIFIER)
  else identifierType src s

/-- C `isIdentifier` of the shared lexer. -/
def sharedIsIdentifier (src : List Char) (s : Scanner) : Token × Scanner :=
  let s1 : Scanner := { s with current := s.current + identRun src s.current }
  (createToken (sharedIdentifierType src s1) s1, s1)

/-- The dispatch switch of the shared `scanToken`: identical to the
interpreter one except for the `'?'` case producing `TOKEN_QUESTION`. -/
def sharedDispatchOn (src : List Char) (c : Char) (s2 : Scanner) :
    Token × Scanner :=
  if c = '(' then (createToken .LEFT_PAREN s2, s2)
  else if c = ')' then (createToken .RIGHT_PAREN s2, s2)
  else if c = lbrace then (createToken .LEFT_BRACE s2, s2)
  else if c = rbrace then (createToken .RIGHT_BRACE s2, s2)
  else if c = '[' then (createToken .LEFT_BRACKET s2, s2)
  else if c = ']' then (createToken .RIGHT_BRACKET s2, s2)
  else if c = ',' then (createToken .COMMA s2, s2)
  else if c = ':' then (createToken .COLON s2, s2)
  else if c = ';' then (createToken .SEMICOLON s2, s2)
  else if c = '?' then (createToken .QUESTION s2, s2)
  else if c = '.' then opPair src '.' .DOT_DOT .DOT s2
  else if c = '+' then opPair src '=' .PLUS_EQUAL .PLUS s2
  else if c = '*' then opPair src '=' .STAR_EQUAL .STAR s2
  else if c = '/' then opPair src '=' .SLASH_EQUAL .SLASH s2
  else if c = '%' then opPair src '=' .PERCENT_EQUAL .PERCENT s2
  else if c = '-' then opTriple src '>' .ARROW '=' .MINUS_EQUAL .MINUS s2
  else if c = '=' then opPair src '=' .EQUAL_EQUAL .EQUAL s2
  else if c = '!' then opPair src '=' .BANG_EQUAL .BANG s2
  else if c = '<' then opTriple src '<' .LEFT_SHIFT '=' .LESS_EQUAL .LESS s2
  else if c = '>' then opTriple src '>' .RIGHT_SHIFT '=' .GREATER_EQUAL .GREATER s2
  else if c = '&' then opPair src '&' .AND .BIT_AND s2
  else if c = '|' then opPair src '|' .OR .BIT_OR s2
  else if c = '^' then (createToken .BIT_XOR s2, s2)
  else if c = '~' then (createToken .BIT_NOT s2, s2)
  else if c = '\'' then isCharLiteral src s2
  else if c = '"' then sharedIsStringLiteral src s2
  else if isDigit c then sharedIsNumberLiteral src s2
  else if isAlpha c then sharedIsIdentifier src s2
  else (errorToken msgUnexpected s2, s2)

/-- C `scanToken` of the shared lexer. -/
def sharedScanToken (src : List Char) (s : Scanner) : Token × Scanner :=
  let s0 := sharedSkipWhitespace src s
  let s1 : Scanner := { s0 with start := s0.current }
  if isAtEnd src s1 then (createToken .EOF s1, s1)
  else sharedDispatchOn src (peek src s1) (adv src s1)

/-!
Memory-access model for C10.  `byteAtChecked` returns the byte at an index
of the allocated buffer (content bytes plus the terminator at index
`src.length`) and `none` for an index past the terminator, i.e. for a read
outside the allocation.  The two `peekNext` variants are re-read against
this model, performing exactly the dereferences the C code performs, in
order; any out-of-bounds dereference makes the whole read `none`.
-/

/-- Checked read: `none` exactly when index `i` lies beyond the buffer's
terminator, i.e. outside the `malloc(size + 1)` allocation. -/
def byteAtChecked (src : List Char) (i : Nat) : Option Char :=
  if i < src.length then some (src.getD i NUL)
  else if i = src.length then some NUL
  else none

/-- Interpreter `peekNext` under checked reads: it dereferences
`scanner.current` and then `scanner.current[1]` unconditionally (both in the
guard and in the return path). -/
def peekNextChecked (src : List Char) (s : Scanner) : Option Char :=
  (byteAtChecked src s.current).bind (fun c0 =>
    (byteAtChecked src (s.current + 1)).map (fun c1 =>
      if c0 = NUL ∧ c1 = NUL then NUL else c1))

/-- Shared `peekNext` under checked reads: it dereferences
`scanner.current` and reads `scanner.current[1]` only when not at the
end. -/
def sharedPeekNextChecked (src : List Char) (s : Scanner) : Option Char :=
  (byteAtChecked src s.current).bind (fun c0 =>
    if c0 = NUL then some NUL
    else byteAtChecked src (s.current + 1))

/-- The scanner state in which `scanToken` creates its Eof token: after the
skip, with `start` moved up to `current`. -/
def eofState (src : List Char) (s : Scanner) : Scanner :=
  { skipWhitespace src s with start := (skipWhitespace src s).current }

/-- The scanner state handed to the dispatch switch: after the skip, with
`start` moved up and the dispatch character consumed. -/
def dispatchState (src : List Char) (s : Scanner) : Scanner :=
  { skipWhitespace src s with start := (skipWhitespace src s).current, current := (skipWhitespace src s).current + 1 }

/-- Bundle of invariants of one dispatch step: starting from state `s2`
(the state right after the dispatch character was consumed), the step
returns `r = (token, final state)` such that the token start offset is
untouched, the cursor moves monotonically and stays inside the buffer, the
token carries the final line, the line counter grows by at most the number
of newlines consumed, and a buffer-span token describes exactly the region
`[start, current)` of the final state.  No dispatch branch produces an
Eof-kind token. -/
structure StepOk (src : List Char) (s2 : Scanner) (r : Token × Scanner) : Prop where
  startEq : r.2.start = s2.start
  mono : s2.current ≤ r.2.current
  bound : s2.current ≤ src.length → r.2.current ≤ src.length
  tokLine : r.1.line = r.2.line
  lineMono : s2.line ≤ r.2.line
  lineLe : r.2.line ≤ s2.line + countNL src s2.current r.2.current
  span : ∀ b, r.1.start = .buf b →
    b = r.2.start ∧ r.1.length = r.2.current - r.2.start
  notEof : r.1.token ≠ .EOF

/-- The line counter grew by exactly the number of newlines consumed. -/
def LineExact (src : List Char) (s2 : Scanner) (r : Token × Scanner) : Prop :=
  r.2.line = s2.line + countNL src s2.current r.2.current

/-! Basic facts about buffer reads, slices and newline counts. -/

theorem byteAt_eq_nul_of_le (src : List Char) (i : Nat)
    (h : src.length ≤ i) : byteAt src i = NUL := by
  simp [byteAt, List.getD, List.getElem?_eq_none h]

theorem byteAt_lt_of_ne (src : List Char) (i : Nat) (h : byteAt src i ≠ NUL) :
    i < src.length := by
  by_contra hlt
  exact h (byteAt_eq_nul_of_le src i (Nat.le_of_not_lt hlt))

theorem isAtEnd_iff (src : List Char) (s : Scanner) :
    isAtEnd src s = true ↔ byteAt src s.current = NUL := by
  simp [isAtEnd]

theorem adv_of_ne (src : List Char) (s : Scanner)
    (h : byteAt src s.current ≠ NUL) :
    adv src s = { s with current := s.current + 1 } := by
  simp [adv, isAtEnd, h]

theorem adv_of_nul (src : List Char) (s : Scanner)
    (h : byteAt src s.current = NUL) : adv src s = s := by
  simp [adv, isAtEnd, h]

theorem adv_start (src : List Char) (s : Scanner) :
    (adv src s).start = s.start := by
  unfold adv; split <;> rfl

theorem adv_line (src : List Char) (s : Scanner) :
    (adv src s).line = s.line := by
  unfold adv; split <;> rfl

theorem adv_mono (src : List Char) (s : Scanner) :
    s.current ≤ (adv src s).current := by
  unfold adv; split
  · exact Nat.le_refl _
  · exact Nat.le_succ _

theorem adv_bound (src : List Char) (s : Scanner)
    (h : s.current ≤ src.length) : (adv src s).current ≤ src.length := by
  unfold adv; split
  · exact h
  · next hne =>
    have := byteAt_lt_of_ne src s.current (by simpa [isAtEnd] using hne)
    show s.current + 1 ≤ src.length
    omega

theorem slice_append (src : List Char) (a b c : Nat) (hab : a ≤ b)
    (hbc : b ≤ c) : slice src a b ++ slice src b c = slice src a c := by
  unfold slice
  have hc : c - a = (b - a) + (c - b) := by omega
  rw [hc, List.take_add]
  congr 1
  rw [List.drop_drop]
  congr 2
  omega

theorem slice_length (src : List Char) (a b : Nat) (hb : b ≤ src.length) :
    (slice src a b).length = b - a := by
  unfold slice
  rw [List.length_take, List.length_drop]
  omega

theorem slice_self (src : List Char) (a : Nat) : slice src a a = [] := by
  simp [slice]

theorem slice_cons (src : List Char) (a b : Nat) (hab : a < b)
    (ha : a < src.length) :
    slice src a b = byteAt src a :: slice src (a + 1) b := by
  unfold slice
  have hd : src.drop a = src[a] :: src.drop (a + 1) :=
    List.drop_eq_getElem_cons ha
  rw [hd]
  have : b - a = (b - (a + 1)) + 1 := by omega
  rw [this, List.take_succ_cons]
  congr 1
  simp [byteAt, List.getD, List.getElem?_eq_getElem ha]

theorem slice_single (src : List Char) (a : Nat) (ha : a < src.length) :
    slice src a (a + 1) = [byteAt src a] := by
  rw [slice_cons src a (a + 1) (Nat.lt_succ_self a) ha, slice_self]

theorem slice_to_end (src : List Char) (a : Nat) :
    slice src a src.length = src.drop a := by
  unfold slice
  exact List.take_of_length_le (by rw [List.length_drop])

theorem slice_append_drop (src : List Char) (a b : Nat) (hab : a ≤ b) :
    slice src a b ++ src.drop b = src.drop a := by
  unfold slice
  conv_rhs => rw [← List.take_append_drop (b - a) (src.drop a)]
  rw [List.drop_drop]
  congr 2
  omega

theorem countNL_self (src : List Char) (a : Nat) : countNL src a a = 0 := by
  simp [countNL, slice_self]

theorem countNL_split (src : List Char) (a b c : Nat) (hab : a ≤ b)
    (hbc : b ≤ c) : countNL src a c = countNL src a b + countNL src b c := by
  unfold countNL
  rw [← slice_append src a b c hab hbc, List.countP_append]

theorem countNL_single (src : List Char) (a : Nat) (ha : a < src.length) :
    countNL src a (a + 1) = if byteAt src a = '\n' then 1 else 0 := by
  rw [countNL, slice_single src a ha]
  by_cases h : byteAt src a = '\n' <;>
    simp [List.countP_cons, List.countP_nil, h]

theorem countNL_single_ne (src : List Char) (a : Nat)
    (h : byteAt src a ≠ '\n') : countNL src a (a + 1) = 0 := by
  by_cases ha : a < src.length
  · rw [countNL_single src a ha, if_neg h]
  · have : slice src a (a + 1) = [] := by
      unfold slice
      rw [List.drop_eq_nil_of_le (by omega), List.take_nil]
    simp [countNL, this]

/-! Facts about maximal runs (`takeWhile` denotations of the simple
scanning loops). -/

theorem take_takeWhile_length {α : Type} (l : List α) (p : α → Bool) :
    l.take (l.takeWhile p).length = l.takeWhile p := by
  induction l with
  | nil => rfl
  | cons x xs ih =>
    by_cases h : p x
    · simp [List.takeWhile_cons, h, ih]
    · simp [List.takeWhile_cons, h]

theorem takeWhile_length_le {α : Type} (l : List α) (p : α → Bool) :
    (l.takeWhile p).length ≤ l.length := by
  induction l with
  | nil => simp
  | cons x xs ih =>
    by_cases h : p x <;> simp [List.takeWhile_cons, h] <;> omega

theorem run_le (src : List Char) (p : Char → Bool) (i : Nat) :
    ((src.drop i).takeWhile p).length ≤ src.length - i := by
  calc ((src.drop i).takeWhile p).length ≤ (src.drop i).length :=
        takeWhile_length_le (src.drop i) p
    _ = src.length - i := List.length_drop i src

theorem slice_run (src : List Char) (p : Char → Bool) (i : Nat) :
    slice src i (i + ((src.drop i).takeWhile p).length) =
      (src.drop i).takeWhile p := by
  unfold slice
  rw [Nat.add_sub_cancel_left]
  exact take_takeWhile_length (src.drop i) p

theorem countNL_run (src : List Char) (p : Char → Bool) (i : Nat)
    (h : ∀ c, p c = true → c ≠ '\n') :
    countNL src i (i + ((src.drop i).takeWhile p).length) = 0 := by
  rw [countNL, slice_run]
  rw [List.countP_eq_zero]
  intro x hx
  have hp := List.mem_takeWhile_imp hx
  simp [h x hp]

/-! Facts about `skipWhitespaceF`. -/

theorem peekNext_of_ne (src : List Char) (s : Scanner)
    (h : byteAt src s.current ≠ NUL) :
    peekNext src s = byteAt src (s.current + 1) := by
  unfold peekNext
  rw [if_neg]
  intro hand
  exact h hand.1

theorem skipWhitespaceF_start (src : List Char) (fuel : Nat) :
    ∀ s : Scanner, (skipWhitespaceF src fuel s).start = s.start := by
  induction fuel with
  | zero => intro s; rfl
  | succ fuel ih =>
    intro s
    rw [skipWhitespaceF]
    by_cases h1 : byteAt src s.current = ' ' ∨ byteAt src s.current = '\t' ∨
        byteAt src s.current = '\r'
    · rw [if_pos h1, ih, adv_start]
    · rw [if_neg h1]
      by_cases h2 : byteAt src s.current = '\n'
      · rw [if_pos h2, ih, adv_start]
      · rw [if_neg h2]
        by_cases h3 : byteAt src s.current = '/'
        · rw [if_pos h3]
          by_cases h4 : peekNext src s = '/'
          · rw [if_pos h4, ih]
          · rw [if_neg h4]
        · rw [if_neg h3]

theorem skipWhitespaceF_mono (src : List Char) (fuel : Nat) :
    ∀ s : Scanner, s.current ≤ (skipWhitespaceF src fuel s).current := by
  induction fuel with
  | zero => intro s; exact Nat.le_refl _
  | succ fuel ih =>
    intro s
    rw [skipWhitespaceF]
    by_cases h1 : byteAt src s.current = ' ' ∨ byteAt src s.current = '\t' ∨
        byteAt src s.current = '\r'
    · rw [if_pos h1]
      exact Nat.le_trans (adv_mono src s) (ih _)
    · rw [if_neg h1]
      by_cases h2 : byteAt src s.current = '\n'
      · rw [if_pos h2]
        exact Nat.le_trans (adv_mono src { s with line := s.line + 1 }) (ih _)
      · rw [if_neg h2]
        by_cases h3 : byteAt src s.current = '/'
        · rw [if_pos h3]
          by_cases h4 : peekNext src s = '/'
          · rw [if_pos h4]
            refine Nat.le_trans ?_ (ih _)
            show s.current ≤ s.current + 2 + commentRun src (s.current + 2)
            omega
          · rw [if_neg h4]
        · rw [if_neg h3]

theorem skipWhitespaceF_bound (src : List Char) (fuel : Nat) :
    ∀ s : Scanner, s.current ≤ src.length →
      (skipWhitespaceF src fuel s).current ≤ src.length := by
  induction fuel with
  | zero => intro s h; exact h
  | succ fuel ih =>
    intro s h
    rw [skipWhitespaceF]
    by_cases h1 : byteAt src s.current = ' ' ∨ byteAt src s.current = '\t' ∨
        byteAt src s.current = '\r'
    · rw [if_pos h1]
      exact ih _ (adv_bound src s h)
    · rw [if_neg h1]
      by_cases h2 : byteAt src s.current = '\n'
      · rw [if_pos h2]
        exact ih _ (adv_bound src _ h)
      · rw [if_neg h2]
        by_cases h3 : byteAt src s.current = '/'
        · rw [if_pos h3]
          by_cases h4 : peekNext src s = '/'
          · rw [if_pos h4]
            apply ih
            have hlt : s.current < src.length :=
              byteAt_lt_of_ne src s.current (by rw [h3]; decide)
            have h5 : byteAt src (s.current + 1) = '/' := by
              rw [← peekNext_of_ne src s (by rw [h3]; decide)]
              exact h4
            have h6 : s.current + 1 < src.length :=
              byteAt_lt_of_ne src (s.current + 1) (by rw [h5]; decide)
            have h7 := run_le src
              (fun ch => !(ch == NUL) && !(ch == '\n')) (s.current + 2)
            show s.current + 2 + commentRun src (s.current + 2) ≤ src.length
            unfold commentRun
            omega
          · rw [if_neg h4]; exact h
        · rw [if_neg h3]; exact h

theorem skipWhitespaceF_nul (src : List Char) (fuel : Nat) (s : Scanner)
    (h : byteAt src s.current = NUL) : skipWhitespaceF src fuel s = s := by
  cases fuel with
  | zero => rfl
  | succ fuel =>
    rw [skipWhitespaceF]
    rw [if_neg (by rw [h]; decide), if_neg (by rw [h]; decide),
      if_neg (by rw [h]; decide)]

theorem skipWhitespaceF_line (src : List Char) (fuel : Nat) :
    ∀ s : Scanner, src.length ≤ s.current + fuel →
      (skipWhitespaceF src fuel s).line =
        s.line + countNL src s.current (skipWhitespaceF src fuel s).current := by
  induction fuel with
  | zero =>
    intro s h
    rw [skipWhitespaceF, countNL_self]
    omega
  | succ fuel ih =>
    intro s h
    rw [skipWhitespaceF]
    by_cases h1 : byteAt src s.current = ' ' ∨ byteAt src s.current = '\t' ∨
        byteAt src s.current = '\r'
    · rw [if_pos h1]
      have hne : byteAt src s.current ≠ NUL := by
        rcases h1 with h1 | h1 | h1 <;> rw [h1] <;> decide
      have hnl : byteAt src s.current ≠ '\n' := by
        rcases h1 with h1 | h1 | h1 <;> rw [h1] <;> decide
      rw [adv_of_ne src s hne]
      have hlt := byteAt_lt_of_ne src s.current hne
      rw [ih _ (by show src.length ≤ s.current + 1 + fuel; omega)]
      have hm := skipWhitespaceF_mono src fuel
        { s with current := s.current + 1 }
      rw [countNL_split src s.current (s.current + 1) _ (by omega)
          (by exact hm),
        countNL_single_ne src s.current hnl]
      dsimp only
      omega
    · rw [if_neg h1]
      by_cases h2 : byteAt src s.current = '\n'
      · rw [if_pos h2]
        have hne : byteAt src s.current ≠ NUL := by rw [h2]; decide
        rw [adv_of_ne src { s with line := s.line + 1 } hne]
        have hlt := byteAt_lt_of_ne src s.current hne
        rw [ih _ (by show src.length ≤ s.current + 1 + fuel; omega)]
        have hm := skipWhitespaceF_mono src fuel
          { s with line := s.line + 1, current := s.current + 1 }
        rw [countNL_split src s.current (s.current + 1) _ (by omega)
            (by exact hm),
          countNL_single src s.current hlt, if_pos h2]
        dsimp only
        omega
      · rw [if_neg h2]
        by_cases h3 : byteAt src s.current = '/'
        · rw [if_pos h3]
          by_cases h4 : peekNext src s = '/'
          · rw [if_pos h4]
            have hlt : s.current < src.length :=
              byteAt_lt_of_ne src s.current (by rw [h3]; decide)
            have h5 : byteAt src (s.current + 1) = '/' := by
              rw [← peekNext_of_ne src s (by rw [h3]; decide)]
              exact h4
            have h6 : s.current + 1 < src.length :=
              byteAt_lt_of_ne src (s.current + 1) (by rw [h5]; decide)
            have h7 := run_le src
              (fun ch => !(ch == NUL) && !(ch == '\n')) (s.current + 2)
            rw [ih _ (by
              show src.length ≤ s.current + 2 + commentRun src (s.current + 2) + fuel
              unfold commentRun
              omega)]
            have hm := skipWhitespaceF_mono src fuel
              { s with current := s.current + 2 + commentRun src (s.current + 2) }
            rw [countNL_split src s.current
                (s.current + 2 + commentRun src (s.current + 2)) _
                (by omega) (by exact hm)]
            have hc0 : countNL src s.current
                (s.current + 2 + commentRun src (s.current + 2)) = 0 := by
              rw [countNL_split src s.current (s.current + 1) _ (by omega)
                  (by omega),
                countNL_split src (s.current + 1) (s.current + 2) _ (by omega)
                  (by omega),
                countNL_single_ne src s.current (by rw [h3]; decide),
                countNL_single_ne src (s.current + 1) (by rw [h5]; decide)]
              have hre : s.current + 2 + commentRun src (s.current + 2) =
                  (s.current + 2) +
                    ((src.drop (s.current + 2)).takeWhile
                      (fun ch => !(ch == NUL) && !(ch == '\n'))).length := rfl
              rw [hre, countNL_run src _ (s.current + 2)
                (by intro c hpc hcn; subst hcn; simp at hpc)]
            rw [hc0]
            dsimp only
            omega
          · rw [if_neg h4, countNL_self]
            omega
        · rw [if_neg h3, countNL_self]
          omega

theorem skipWhitespaceF_post (src : List Char) (fuel : Nat) :
    ∀ s : Scanner, src.length ≤ s.current + fuel →
      byteAt src (skipWhitespaceF src fuel s).current ≠ '\n' := by
  induction fuel with
  | zero =>
    intro s h
    rw [skipWhitespaceF]
    rw [byteAt_eq_nul_of_le src s.current (by omega)]
    decide
  | succ fuel ih =>
    intro s h
    rw [skipWhitespaceF]
    by_cases h1 : byteAt src s.current = ' ' ∨ byteAt src s.current = '\t' ∨
        byteAt src s.current = '\r'
    · rw [if_pos h1]
      have hne : byteAt src s.current ≠ NUL := by
        rcases h1 with h1 | h1 | h1 <;> rw [h1] <;> decide
      rw [adv_of_ne src s hne]
      have hlt := byteAt_lt_of_ne src s.current hne
      exact ih _ (by show src.length ≤ s.current + 1 + fuel; omega)
    · rw [if_neg h1]
      by_cases h2 : byteAt src s.current = '\n'
      · rw [if_pos h2]
        have hne : byteAt src s.current ≠ NUL := by rw [h2]; decide
        rw [adv_of_ne src { s with line := s.line + 1 } hne]
        have hlt := byteAt_lt_of_ne src s.current hne
        exact ih _ (by show src.length ≤ s.current + 1 + fuel; omega)
      · rw [if_neg h2]
        by_cases h3 : byteAt src s.current = '/'
        · rw [if_pos h3]
          by_cases h4 : peekNext src s = '/'
          · rw [if_pos h4]
            have hlt : s.current < src.length :=
              byteAt_lt_of_ne src s.current (by rw [h3]; decide)
            have h5 : byteAt src (s.current + 1) = '/' := by
              rw [← peekNext_of_ne src s (by rw [h3]; decide)]
              exact h4
            have h6 : s.current + 1 < src.length :=
              byteAt_lt_of_ne src (s.current + 1) (by rw [h5]; decide)
            have h7 := run_le src
              (fun ch => !(ch == NUL) && !(ch == '\n')) (s.current + 2)
            exact ih _ (by
              show src.length ≤ s.current + 2 + commentRun src (s.current + 2) + fuel
              unfold commentRun
              omega)
          · rw [if_neg h4, h3]; decide
        · rw [if_neg h3]; exact h2

/-! The canonical-fuel `skipWhitespace` inherits every fact, since
`src.length + 1` fuel always satisfies the sufficiency bound. -/

theorem skipWhitespace_start (src : List Char) (s : Scanner) :
    (skipWhitespace src s).start = s.start :=
  skipWhitespaceF_start src (src.length + 1) s

theorem skipWhitespace_mono (src : List Char) (s : Scanner) :
    s.current ≤ (skipWhitespace src s).current :=
  skipWhitespaceF_mono src (src.length + 1) s

theorem skipWhitespace_bound (src : List Char) (s : Scanner)
    (h : s.current ≤ src.length) :
    (skipWhitespace src s).current ≤ src.length :=
  skipWhitespaceF_bound src (src.length + 1) s h

theorem skipWhitespace_nul (src : List Char) (s : Scanner)
    (h : byteAt src s.current = NUL) : skipWhitespace src s = s :=
  skipWhitespaceF_nul src (src.length + 1) s h

theorem skipWhitespace_line (src : List Char) (s : Scanner) :
    (skipWhitespace src s).line =
      s.line + countNL src s.current (skipWhitespace src s).current :=
  skipWhitespaceF_line src (src.length + 1) s (by omega)

theorem skipWhitespace_post (src : List Char) (s : Scanner) :
    byteAt src (skipWhitespace src s).current ≠ '\n' :=
  skipWhitespaceF_post src (src.length + 1) s (by omega)

/-! Facts about the dispatch-step helpers. -/

theorem matchCh_cases (src : List Char) (e : Char) (s : Scanner) :
    matchCh src e s = (false, s) ∨
      (matchCh src e s = (true, { s with current := s.current + 1 }) ∧
        byteAt src s.current = e ∧ s.current < src.length) := by
  unfold matchCh
  by_cases h1 : isAtEnd src s = true
  · rw [if_pos h1]; left; rfl
  · rw [if_neg h1]
    by_cases h2 : byteAt src s.current ≠ e
    · rw [if_pos h2]; left; rfl
    · rw [if_neg h2]
      push_neg at h2
      right
      refine ⟨rfl, h2, ?_⟩
      apply byteAt_lt_of_ne
      simpa [isAtEnd] using h1

theorem stepOk_createToken (src : List Char) (s2 s' : Scanner) (tt : TokenType)
    (htt : tt ≠ TokenType.EOF) (hstart : s'.start = s2.start)
    (hmono : s2.current ≤ s'.current)
    (hbound : s2.current ≤ src.length → s'.current ≤ src.length)
    (hline : s'.line = s2.line) :
    StepOk src s2 (createToken tt s', s') where
  startEq := hstart
  mono := hmono
  bound := hbound
  tokLine := rfl
  lineMono := by rw [hline]
  lineLe := by rw [hline]; exact Nat.le_add_right _ _
  span := by
    intro b hb
    simp only [createToken, TokenStart.buf.injEq] at hb
    exact ⟨hb.symm, rfl⟩
  notEof := htt

theorem stepOk_errorToken (src : List Char) (s2 s' : Scanner) (m : List Char)
    (hstart : s'.start = s2.start) (hmono : s2.current ≤ s'.current)
    (hbound : s2.current ≤ src.length → s'.current ≤ src.length)
    (hline : s'.line = s2.line) :
    StepOk src s2 (errorToken m s', s') where
  startEq := hstart
  mono := hmono
  bound := hbound
  tokLine := rfl
  lineMono := by rw [hline]
  lineLe := by rw [hline]; exact Nat.le_add_right _ _
  span := by intro b hb; simp [errorToken] at hb
  notEof := by simp [errorToken]

theorem lineExact_of_zero (src : List Char) (s2 : Scanner) (r : Token × Scanner)
    (hline : r.2.line = s2.line)
    (hcnt : countNL src s2.current r.2.current = 0) : LineExact src s2 r := by
  unfold LineExact
  rw [hcnt, hline]
  omega

theorem opPair_eq_false (src : List Char) (e : Char) (two one : TokenType)
    (s2 : Scanner) (hm : matchCh src e s2 = (false, s2)) :
    opPair src e two one s2 = (createToken one s2, s2) := by
  unfold opPair
  rw [hm]
  rfl

theorem opPair_eq_true (src : List Char) (e : Char) (two one : TokenType)
    (s2 : Scanner)
    (hm : matchCh src e s2 = (true, { s2 with current := s2.current + 1 })) :
    opPair src e two one s2 =
      (createToken two { s2 with current := s2.current + 1 },
        { s2 with current := s2.current + 1 }) := by
  unfold opPair
  rw [hm]
  rfl

theorem opPair_facts (src : List Char) (e : Char) (two one : TokenType)
    (s2 : Scanner) (h2 : two ≠ TokenType.EOF) (h1 : one ≠ TokenType.EOF)
    (he : e ≠ '\n') :
    StepOk src s2 (opPair src e two one s2) ∧
      LineExact src s2 (opPair src e two one s2) := by
  rcases matchCh_cases src e s2 with hm | ⟨hm, hbe, hlt⟩
  · rw [opPair_eq_false src e two one s2 hm]
    exact ⟨stepOk_createToken src s2 s2 one h1 rfl (Nat.le_refl _) id rfl,
      lineExact_of_zero src s2 _ rfl (countNL_self src s2.current)⟩
  · rw [opPair_eq_true src e two one s2 hm]
    refine ⟨stepOk_createToken src s2 _ two h2 rfl (Nat.le_succ _)
      (fun _ => by show s2.current + 1 ≤ src.length; omega) rfl, ?_⟩
    exact lineExact_of_zero src s2 _ rfl
      (countNL_single_ne src s2.current (by rw [hbe]; exact he))

theorem opTriple_eq_a (src : List Char) (a : Char) (tA : TokenType) (b : Char)
    (tB tBare : TokenType) (s2 : Scanner)
    (hma : matchCh src a s2 = (true, { s2 with current := s2.current + 1 })) :
    opTriple src a tA b tB tBare s2 =
      (createToken tA { s2 with current := s2.current + 1 },
        { s2 with current := s2.current + 1 }) := by
  unfold opTriple
  rw [hma]
  rfl

theorem opTriple_eq_b (src : List Char) (a : Char) (tA : TokenType) (b : Char)
    (tB tBare : TokenType) (s2 : Scanner)
    (hma : matchCh src a s2 = (false, s2))
    (hmb : matchCh src b s2 = (true, { s2 with current := s2.current + 1 })) :
    opTriple src a tA b tB tBare s2 =
      (createToken tB { s2 with current := s2.current + 1 },
        { s2 with current := s2.current + 1 }) := by
  unfold opTriple
  rw [hma]
  show (let r2 := matchCh src b s2
    (createToken (if r2.1 then tB else tBare) r2.2, r2.2)) = _
  rw [hmb]
  rfl

theorem opTriple_eq_none (src : List Char) (a : Char) (tA : TokenType)
    (b : Char) (tB tBare : TokenType) (s2 : Scanner)
    (hma : matchCh src a s2 = (false, s2))
    (hmb : matchCh src b s2 = (false, s2)) :
    opTriple src a tA b tB tBare s2 = (createToken tBare s2, s2) := by
  unfold opTriple
  rw [hma]
  show (let r2 := matchCh src b s2
    (createToken (if r2.1 then tB else tBare) r2.2, r2.2)) = _
  rw [hmb]
  rfl

theorem opTriple_facts (src : List Char) (a : Char) (tA : TokenType) (b : Char)
    (tB tBare : TokenType) (s2 : Scanner) (hA : tA ≠ TokenType.EOF)
    (hB : tB ≠ TokenType.EOF) (hBare : tBare ≠ TokenType.EOF)
    (ha : a ≠ '\n') (hb : b ≠ '\n') :
    StepOk src s2 (opTriple src a tA b tB tBare s2) ∧
      LineExact src s2 (opTriple src a tA b tB tBare s2) := by
  rcases matchCh_cases src a s2 with hma | ⟨hma, hbea, hlta⟩
  · rcases matchCh_cases src b s2 with hmb | ⟨hmb, hbeb, hltb⟩
    · rw [opTriple_eq_none src a tA b tB tBare s2 hma hmb]
      exact ⟨stepOk_createToken src s2 s2 tBare hBare rfl (Nat.le_refl _) id rfl,
        lineExact_of_zero src s2 _ rfl (countNL_self src s2.current)⟩
    · rw [opTriple_eq_b src a tA b tB tBare s2 hma hmb]
      refine ⟨stepOk_createToken src s2 _ tB hB rfl (Nat.le_succ _)
        (fun _ => by show s2.current + 1 ≤ src.length; omega) rfl, ?_⟩
      exact lineExact_of_zero src s2 _ rfl
        (countNL_single_ne src s2.current (by rw [hbeb]; exact hb))
  · rw [opTriple_eq_a src a tA b tB tBare s2 hma]
    refine ⟨stepOk_createToken src s2 _ tA hA rfl (Nat.le_succ _)
      (fun _ => by show s2.current + 1 ≤ src.length; omega) rfl, ?_⟩
    exact lineExact_of_zero src s2 _ rfl
      (countNL_single_ne src s2.current (by rw [hbea]; exact ha))

/-! Facts about the literal and identifier scanners. -/

theorem isEscapeChar_ne (c : Char) (h : isEscapeChar c = true) :
    c ≠ NUL ∧ c ≠ '\n' := by
  constructor
  · intro hc; subst hc; exact absurd h (by decide)
  · intro hc; subst hc; exact absurd h (by decide)

theorem isDigit_ne (c : Char) (h : isDigit c = true) : c ≠ NUL ∧ c ≠ '\n' := by
  constructor
  · intro hc; subst hc; exact absurd h (by decide)
  · intro hc; subst hc; exact absurd h (by decide)

theorem isAlphaDigit_ne (c : Char) (h : (isAlpha c || isDigit c) = true) :
    c ≠ NUL ∧ c ≠ '\n' := by
  constructor
  · intro hc; subst hc; exact absurd h (by decide)
  · intro hc; subst hc; exact absurd h (by decide)

theorem countNL_digitRun (src : List Char) (i : Nat) :
    countNL src i (i + digitRun src i) = 0 := by
  unfold digitRun
  exact countNL_run src _ i (fun c h => (isDigit_ne c h).2)

theorem countNL_identRun (src : List Char) (i : Nat) :
    countNL src i (i + identRun src i) = 0 := by
  unfold identRun
  exact countNL_run src _ i (fun c h => (isAlphaDigit_ne c h).2)

theorem digitRun_le (src : List Char) (i : Nat) :
    digitRun src i ≤ src.length - i := by
  unfold digitRun
  exact run_le src _ i

theorem identRun_le (src : List Char) (i : Nat) :
    identRun src i ≤ src.length - i := by
  unfold identRun
  exact run_le src _ i

theorem step_extend (src : List Char) (s sMid : Scanner) (r : Token × Scanner)
    (hok : StepOk src sMid r) (hex : LineExact src sMid r)
    (hstart : sMid.start = s.start)
    (hmono : s.current ≤ sMid.current)
    (hbound : s.current ≤ src.length → sMid.current ≤ src.length)
    (hline : sMid.line = s.line + countNL src s.current sMid.current) :
    StepOk src s r ∧ LineExact src s r := by
  have hsplit := countNL_split src s.current sMid.current r.2.current hmono
    hok.mono
  refine ⟨?_, ?_⟩
  · exact {
      startEq := by rw [hok.startEq, hstart]
      mono := Nat.le_trans hmono hok.mono
      bound := fun h => hok.bound (hbound h)
      tokLine := hok.tokLine
      lineMono := by have h1 := hok.lineMono; omega
      lineLe := by have h1 := hok.lineLe; omega
      span := hok.span
      notEof := hok.notEof }
  · have h1 : r.2.line = sMid.line + countNL src sMid.current r.2.current := hex
    show r.2.line = s.line + countNL src s.current r.2.current
    omega

theorem isCharLiteral_facts (src : List Char) (s : Scanner) :
    StepOk src s (isCharLiteral src s) ∧ (isCharLiteral src s).2.line = s.line := by
  simp only [isCharLiteral]
  split
  · exact ⟨stepOk_errorToken src s s msgEmptyChar rfl (Nat.le_refl _) id rfl, rfl⟩
  · split
    · next h1 h2 =>
      split
      · next h3 =>
        have hne1 : byteAt src s.current ≠ NUL := by
          rw [show byteAt src s.current = '\\' from h2]; decide
        have hne2 : byteAt src (adv src s).current ≠ NUL :=
          (isEscapeChar_ne _ h3).1
        split
        · next h4 =>
          have hne3 : byteAt src (adv src (adv src s)).current ≠ NUL := by
            rw [show byteAt src (adv src (adv src s)).current = '\'' from h4]
            decide
          refine ⟨stepOk_createToken src s _ .CHAR_LITERAL (by decide) ?_ ?_ ?_ ?_,
            ?_⟩
          · rw [adv_start, adv_start, adv_start]
          · exact Nat.le_trans (adv_mono src s) (Nat.le_trans (adv_mono src _)
              (adv_mono src _))
          · intro hb
            exact adv_bound src _ (adv_bound src _ (adv_bound src _ hb))
          · rw [adv_line, adv_line, adv_line]
          · rw [adv_line, adv_line, adv_line]
        · exact ⟨stepOk_errorToken src s _ msgCharTooLong
            (by rw [adv_start, adv_start])
            (Nat.le_trans (adv_mono src s) (adv_mono src _))
            (fun hb => adv_bound src _ (adv_bound src _ hb))
            (by rw [adv_line, adv_line]),
            by rw [adv_line, adv_line]⟩
      · exact ⟨stepOk_errorToken src s _ msgInvalidEscapeChar
          (by rw [adv_start]) (adv_mono src s)
          (fun hb => adv_bound src _ hb) (by rw [adv_line]),
          by rw [adv_line]⟩
    · split
      · exact ⟨stepOk_createToken src s _ .CHAR_LITERAL (by decide)
          (by rw [adv_start, adv_start])
          (Nat.le_trans (adv_mono src s) (adv_mono src _))
          (fun hb => adv_bound src _ (adv_bound src _ hb))
          (by rw [adv_line, adv_line]),
          by rw [adv_line, adv_line]⟩
      · exact ⟨stepOk_errorToken src s _ msgCharTooLong (by rw [adv_start])
          (adv_mono src s) (fun hb => adv_bound src _ hb) (by rw [adv_line]),
          by rw [adv_line]⟩

theorem isNumberLiteral_facts (src : List Char) (s : Scanner) :
    StepOk src s (isNumberLiteral src s) ∧
      LineExact src s (isNumberLiteral src s) := by
  have hr1 := digitRun_le src s.current
  simp only [isNumberLiteral]
  split
  · next h =>
    have hdot : byteAt src (s.current + digitRun src s.current) = '.' := h.1
    have hne : byteAt src (s.current + digitRun src s.current) ≠ NUL := by
      rw [hdot]; decide
    have hlt := byteAt_lt_of_ne src _ hne
    rw [adv_of_ne src _ hne]
    have hr2 := digitRun_le src (s.current + digitRun src s.current + 1)
    have hcnt : countNL src s.current
        (s.current + digitRun src s.current + 1 +
          digitRun src (s.current + digitRun src s.current + 1)) = 0 := by
      rw [countNL_split src s.current (s.current + digitRun src s.current) _
          (by omega) (by omega),
        countNL_split src (s.current + digitRun src s.current)
          (s.current + digitRun src s.current + 1) _ (by omega) (by omega),
        countNL_digitRun src s.current,
        countNL_single_ne src _ (by rw [hdot]; decide),
        countNL_digitRun src (s.current + digitRun src s.current + 1)]
    refine ⟨stepOk_createToken src s _ .FLOAT_LITERAL (by decide) rfl ?_ ?_ rfl,
      lineExact_of_zero src s _ rfl ?_⟩
    · show s.current ≤ s.current + digitRun src s.current + 1 +
        digitRun src (s.current + digitRun src s.current + 1)
      omega
    · intro hb
      show s.current + digitRun src s.current + 1 +
        digitRun src (s.current + digitRun src s.current + 1) ≤ src.length
      omega
    · exact hcnt
  · refine ⟨stepOk_createToken src s _ .INT_LITERAL (by decide) rfl
      (Nat.le_add_right _ _) ?_ rfl,
      lineExact_of_zero src s _ rfl (countNL_digitRun src s.current)⟩
    intro hb
    show s.current + digitRun src s.current ≤ src.length
    omega

theorem checkKeyword_ne_eof (src : List Char) (s : Scanner) (off len : Nat)
    (rest : List Char) (tt : TokenType) (htt : tt ≠ TokenType.EOF) :
    checkKeyword src s off len rest tt ≠ TokenType.EOF := by
  unfold checkKeyword
  split
  · exact htt
  · decide

theorem identifierType_ne_eof (src : List Char) (s : Scanner) :
    identifierType src s ≠ TokenType.EOF := by
  unfold identifierType
  intro h
  by_cases h0 : byteAt src s.start = 'b'
  · rw [if_pos h0] at h
    repeat' split at h
    all_goals first
      | exact TokenType.noConfusion h
      | (unfold checkKeyword at h; split at h <;> exact TokenType.noConfusion h)
  · rw [if_neg h0] at h
    by_cases h1 : byteAt src s.start = 'c'
    · rw [if_pos h1] at h
      repeat' split at h
      all_goals first
        | exact TokenType.noConfusion h
        | (unfold checkKeyword at h; split at h <;> exact TokenType.noConfusion h)
    · rw [if_neg h1] at h
      by_cases h2 : byteAt src s.start = 'd'
      · rw [if_pos h2] at h
        repeat' split at h
        all_goals first
          | exact TokenType.noConfusion h
          | (unfold checkKeyword at h; split at h <;> exact TokenType.noConfusion h)
      · rw [if_neg h2] at h
        by_cases h3 : byteAt src s.start = 'e'
        · rw [if_pos h3] at h
          repeat' split at h
          all_goals first
            | exact TokenType.noConfusion h
            | (unfold checkKeyword at h; split at h <;> exact TokenType.noConfusion h)
        · rw [if_neg h3] at h
          by_cases h4 : byteAt src s.start = 'f'
          · rw [if_pos h4] at h
            repeat' split at h
            all_goals first
              | exact TokenType.noConfusion h
              | (unfold checkKeyword at h; split at h <;> exact TokenType.noConfusion h)
          · rw [if_neg h4] at h
            by_cases h5 : byteAt src s.start = 'i'
            · rw [if_pos h5] at h
              repeat' split at h
              all_goals first
                | exact TokenType.noConfusion h
                | (unfold checkKeyword at h; split at h <;> exact TokenType.noConfusion h)
            · rw [if_neg h5] at h
              by_cases h6 : byteAt src s.start = 'l'
              · rw [if_pos h6] at h
                repeat' split at h
                all_goals first
                  | exact TokenType.noConfusion h
                  | (unfold checkKeyword at h; split at h <;> exact TokenType.noConfusion h)
              · rw [if_neg h6] at h
                by_cases h7 : byteAt src s.start = 'm'
                · rw [if_pos h7] at h
                  repeat' split at h
                  all_goals first
                    | exact TokenType.noConfusion h
                    | (unfold checkKeyword at h; split at h <;> exact TokenType.noConfusion h)
                · rw [if_neg h7] at h
                  by_cases h8 : byteAt src s.start = 'n'
                  · rw [if_pos h8] at h
                    repeat' split at h
                    all_goals first
                      | exact TokenType.noConfusion h
                      | (unfold checkKeyword at h; split at h <;> exact TokenType.noConfusion h)
                  · rw [if_neg h8] at h
                    by_cases h9 : byteAt src s.start = 'r'
                    · rw [if_pos h9] at h
                      repeat' split at h
                      all_goals first
                        | exact TokenType.noConfusion h
                        | (unfold checkKeyword at h; split at h <;> exact TokenType.noConfusion h)
                    · rw [if_neg h9] at h
                      by_cases h10 : byteAt src s.start = 's'
                      · rw [if_pos h10] at h
                        repeat' split at h
                        all_goals first
                          | exact TokenType.noConfusion h
                          | (unfold checkKeyword at h; split at h <;> exact TokenType.noConfusion h)
                      · rw [if_neg h10] at h
                        by_cases h11 : byteAt src s.start = 't'
                        · rw [if_pos h11] at h
                          repeat' split at h
                          all_goals first
                            | exact TokenType.noConfusion h
                            | (unfold checkKeyword at h; split at h <;> exact TokenType.noConfusion h)
                        · rw [if_neg h11] at h
                          by_cases h12 : byteAt src s.start = 'u'
                          · rw [if_pos h12] at h
                            repeat' split at h
                            all_goals first
                              | exact TokenType.noConfusion h
                              | (unfold checkKeyword at h; split at h <;> exact TokenType.noConfusion h)
                          · rw [if_neg h12] at h
                            by_cases h13 : byteAt src s.start = 'v'
                            · rw [if_pos h13] at h
                              repeat' split at h
                              all_goals first
                                | exact TokenType.noConfusion h
                                | (unfold checkKeyword at h; split at h <;> exact TokenType.noConfusion h)
                            · rw [if_neg h13] at h
                              by_cases h14 : byteAt src s.start = 'w'
                              · rw [if_pos h14] at h
                                repeat' split at h
                                all_goals first
                                  | exact TokenType.noConfusion h
                                  | (unfold checkKeyword at h; split at h <;> exact TokenType.noConfusion h)
                              · rw [if_neg h14] at h
                                exact TokenType.noConfusion h

theorem isIdentifier_facts (src : List Char) (s : Scanner) :
    StepOk src s (isIdentifier src s) ∧ LineExact src s (isIdentifier src s) := by
  have hr1 := identRun_le src s.current
  simp only [isIdentifier]
  refine ⟨stepOk_createToken src s _ _ (identifierType_ne_eof src _) rfl
    (Nat.le_add_right _ _) ?_ rfl,
    lineExact_of_zero src s _ rfl (countNL_identRun src s.current)⟩
  intro hb
  show s.current + identRun src s.current ≤ src.length
  omega

theorem isStringLiteralF_facts (src : List Char) (fuel : Nat) :
    ∀ s : Scanner, StepOk src s (isStringLiteralF src fuel s) ∧
      LineExact src s (isStringLiteralF src fuel s) := by
  induction fuel with
  | zero =>
    intro s
    exact ⟨stepOk_errorToken src s s msgUnterminated rfl (Nat.le_refl _) id rfl,
      lineExact_of_zero src s _ rfl (countNL_self src s.current)⟩
  | succ fuel ih =>
    intro s
    rw [isStringLiteralF]
    by_cases hloop : peek src s ≠ '"' ∧ ¬ (isAtEnd src s = true)
    · rw [if_pos hloop]
      have hne : byteAt src s.current ≠ NUL := by
        have := hloop.2
        simpa [isAtEnd] using this
      have hlt := byteAt_lt_of_ne src s.current hne
      by_cases hn : peek src s = '\n'
      · rw [if_pos hn]
        have hnb : ¬ peek src { s with line := s.line + 1 } = '\\' := by
          show ¬ byteAt src s.current = '\\'
          rw [show byteAt src s.current = '\n' from hn]
          decide
        rw [if_neg hnb]
        rw [adv_of_ne src { s with line := s.line + 1 } hne]
        refine step_extend src s _ _ (ih _).1 (ih _).2 rfl (Nat.le_succ _)
          (fun _ => by show s.current + 1 ≤ src.length; omega) ?_
        show s.line + 1 = s.line + countNL src s.current (s.current + 1)
        rw [countNL_single src s.current hlt,
          if_pos (show byteAt src s.current = '\n' from hn)]
      · rw [if_neg hn]
        by_cases hb : peek src s = '\\'
        · rw [if_pos hb]
          rw [adv_of_ne src s hne]
          by_cases he : isEscapeChar (peek src { s with current := s.current + 1 }) =
              true
          · rw [if_pos he]
            have hne2 : byteAt src (s.current + 1) ≠ NUL :=
              (isEscapeChar_ne _ he).1
            have hlt2 := byteAt_lt_of_ne src (s.current + 1) hne2
            rw [adv_of_ne src { s with current := s.current + 1 } hne2]
            refine step_extend src s _ _ (ih _).1 (ih _).2 rfl
              (by show s.current ≤ s.current + 1 + 1; omega)
              (fun _ => by show s.current + 1 + 1 ≤ src.length; omega) ?_
            show s.line = s.line + countNL src s.current (s.current + 1 + 1)
            rw [countNL_split src s.current (s.current + 1) (s.current + 1 + 1)
                (by omega) (by omega),
              countNL_single_ne src s.current
                (by rw [show byteAt src s.current = '\\' from hb]; decide),
              countNL_single_ne src (s.current + 1) (isEscapeChar_ne _ he).2]
            omega
          · rw [if_neg he]
            refine ⟨stepOk_errorToken src s _ msgInvalidEscape rfl (Nat.le_succ _)
              (fun _ => by show s.current + 1 ≤ src.length; omega) rfl, ?_⟩
            exact lineExact_of_zero src s _ rfl
              (countNL_single_ne src s.current
                (by rw [show byteAt src s.current = '\\' from hb]; decide))
        · rw [if_neg hb]
          rw [adv_of_ne src s hne]
          refine step_extend src s _ _ (ih _).1 (ih _).2 rfl (Nat.le_succ _)
            (fun _ => by show s.current + 1 ≤ src.length; omega) ?_
          show s.line = s.line + countNL src s.current (s.current + 1)
          rw [countNL_single_ne src s.current (by exact hn)]
          omega
    · rw [if_neg hloop]
      by_cases hend : isAtEnd src s = true
      · rw [if_pos hend]
        exact ⟨stepOk_errorToken src s s msgUnterminated rfl (Nat.le_refl _) id
          rfl,
          lineExact_of_zero src s _ rfl (countNL_self src s.current)⟩
      · rw [if_neg hend]
        have hq : byteAt src s.current = '"' := by
          rcases not_and_or.mp hloop with h | h
          · simpa [peek] using not_not.mp h
          · exact absurd (not_not.mp h) hend
        have hne : byteAt src s.current ≠ NUL := by rw [hq]; decide
        have hlt := byteAt_lt_of_ne src s.current hne
        rw [adv_of_ne src s hne]
        refine ⟨stepOk_createToken src s _ .STRING_LITERAL (by decide) rfl
          (Nat.le_succ _) (fun _ => by show s.current + 1 ≤ src.length; omega)
          rfl, ?_⟩
        exact lineExact_of_zero src s _ rfl
          (countNL_single_ne src s.current (by rw [hq]; decide))

theorem isStringLiteral_facts (src : List Char) (s : Scanner) :
    StepOk src s (isStringLiteral src s) ∧
      LineExact src s (isStringLiteral src s) :=
  isStringLiteralF_facts src (src.length + 1) s

theorem dispatchOn_master (src : List Char) (c : Char) (s2 : Scanner) :
    StepOk src s2 (dispatchOn src c s2) ∧
      (c ≠ '\'' → LineExact src s2 (dispatchOn src c s2)) := by
  unfold dispatchOn
  by_cases h0 : c = '('
  · rw [if_pos h0]
    exact ⟨stepOk_createToken src s2 s2 .LEFT_PAREN (by decide) rfl
      (Nat.le_refl _) id rfl,
      fun _ => lineExact_of_zero src s2 _ rfl (countNL_self src s2.current)⟩
  · rw [if_neg h0]
    by_cases h1 : c = ')'
    · rw [if_pos h1]
      exact ⟨stepOk_createToken src s2 s2 .RIGHT_PAREN (by decide) rfl
        (Nat.le_refl _) id rfl,
        fun _ => lineExact_of_zero src s2 _ rfl (countNL_self src s2.current)⟩
    · rw [if_neg h1]
      by_cases h2 : c = lbrace
      · rw [if_pos h2]
        exact ⟨stepOk_createToken src s2 s2 .LEFT_BRACE (by decide) rfl
          (Nat.le_refl _) id rfl,
          fun _ => lineExact_of_zero src s2 _ rfl (countNL_self src s2.current)⟩
      · rw [if_neg h2]
        by_cases h3 : c = rbrace
        · rw [if_pos h3]
          exact ⟨stepOk_createToken src s2 s2 .RIGHT_BRACE (by decide) rfl
            (Nat.le_refl _) id rfl,
            fun _ => lineExact_of_zero src s2 _ rfl (countNL_self src s2.current)⟩
        · rw [if_neg h3]
          by_cases h4 : c = '['
          · rw [if_pos h4]
            exact ⟨stepOk_createToken src s2 s2 .LEFT_BRACKET (by decide) rfl
              (Nat.le_refl _) id rfl,
              fun _ => lineExact_of_zero src s2 _ rfl (countNL_self src s2.current)⟩
          · rw [if_neg h4]
            by_cases h5 : c = ']'
            · rw [if_pos h5]
              exact ⟨stepOk_createToken src s2 s2 .RIGHT_BRACKET (by decide) rfl
                (Nat.le_refl _) id rfl,
                fun _ => lineExact_of_zero src s2 _ rfl (countNL_self src s2.current)⟩
            · rw [if_neg h5]
              by_cases h6 : c = ','
              · rw [if_pos h6]
                exact ⟨stepOk_createToken src s2 s2 .COMMA (by decide) rfl
                  (Nat.le_refl _) id rfl,
                  fun _ => lineExact_of_zero src s2 _ rfl (countNL_self src s2.current)⟩
              · rw [if_neg h6]
                by_cases h7 : c = ':'
                · rw [if_pos h7]
                  exact ⟨stepOk_createToken src s2 s2 .COLON (by decide) rfl
                    (Nat.le_refl _) id rfl,
                    fun _ => lineExact_of_zero src s2 _ rfl (countNL_self src s2.current)⟩
                · rw [if_neg h7]
                  by_cases h8 : c = ';'
                  · rw [if_pos h8]
                    exact ⟨stepOk_createToken src s2 s2 .SEMICOLON (by decide) rfl
                      (Nat.le_refl _) id rfl,
                      fun _ => lineExact_of_zero src s2 _ rfl (countNL_self src s2.current)⟩
                  · rw [if_neg h8]
                    by_cases h9 : c = '.'
                    · rw [if_pos h9]
                      have h := opPair_facts src '.' .DOT_DOT .DOT s2 (by decide) (by decide)
                        (by decide)
                      exact ⟨h.1, fun _ => h.2⟩
                    · rw [if_neg h9]
                      by_cases h10 : c = '+'
                      · rw [if_pos h10]
                        have h := opPair_facts src '=' .PLUS_EQUAL .PLUS s2 (by decide) (by decide)
                          (by decide)
                        exact ⟨h.1, fun _ => h.2⟩
                      · rw [if_neg h10]
                        by_cases h11 : c = '*'
                        · rw [if_pos h11]
                          have h := opPair_facts src '=' .STAR_EQUAL .STAR s2 (by decide) (by decide)
                            (by decide)
                          exact ⟨h.1, fun _ => h.2⟩
                        · rw [if_neg h11]
                          by_cases h12 : c = '/'
                          · rw [if_pos h12]
                            have h := opPair_facts src '=' .SLASH_EQUAL .SLASH s2 (by decide) (by decide)
                              (by decide)
                            exact ⟨h.1, fun _ => h.2⟩
                          · rw [if_neg h12]
                            by_cases h13 : c = '%'
                            · rw [if_pos h13]
                              have h := opPair_facts src '=' .PERCENT_EQUAL .PERCENT s2 (by decide) (by decide)
                                (by decide)
                              exact ⟨h.1, fun _ => h.2⟩
                            · rw [if_neg h13]
                              by_cases h14 : c = '-'
                              · rw [if_pos h14]
                                have h := opTriple_facts src '>' .ARROW '=' .MINUS_EQUAL .MINUS s2 (by decide)
                                  (by decide) (by decide) (by decide) (by decide)
                                exact ⟨h.1, fun _ => h.2⟩
                              · rw [if_neg h14]
                                by_cases h15 : c = '='
                                · rw [if_pos h15]
                                  have h := opPair_facts src '=' .EQUAL_EQUAL .EQUAL s2 (by decide) (by decide)
                                    (by decide)
                                  exact ⟨h.1, fun _ => h.2⟩
                                · rw [if_neg h15]
                                  by_cases h16 : c = '!'
                                  · rw [if_pos h16]
                                    have h := opPair_facts src '=' .BANG_EQUAL .BANG s2 (by decide) (by decide)
                                      (by decide)
                                    exact ⟨h.1, fun _ => h.2⟩
                                  · rw [if_neg h16]
                                    by_cases h17 : c = '<'
                                    · rw [if_pos h17]
                                      have h := opTriple_facts src '<' .LEFT_SHIFT '=' .LESS_EQUAL .LESS s2 (by decide)
                                        (by decide) (by decide) (by decide) (by decide)
                                      exact ⟨h.1, fun _ => h.2⟩
                                    · rw [if_neg h17]
                                      by_cases h18 : c = '>'
                                      · rw [if_pos h18]
                                        have h := opTriple_facts src '>' .RIGHT_SHIFT '=' .GREATER_EQUAL .GREATER s2 (by decide)
                                          (by decide) (by decide) (by decide) (by decide)
                                        exact ⟨h.1, fun _ => h.2⟩
                                      · rw [if_neg h18]
                                        by_cases h19 : c = '&'
                                        · rw [if_pos h19]
                                          have h := opPair_facts src '&' .AND .BIT_AND s2 (by decide) (by decide)
                                            (by decide)
                                          exact ⟨h.1, fun _ => h.2⟩
                                        · rw [if_neg h19]
                                          by_cases h20 : c = '|'
                                          · rw [if_pos h20]
                                            have h := opPair_facts src '|' .OR .BIT_OR s2 (by decide) (by decide)
                                              (by decide)
                                            exact ⟨h.1, fun _ => h.2⟩
                                          · rw [if_neg h20]
                                            by_cases h21 : c = '^'
                                            · rw [if_pos h21]
                                              exact ⟨stepOk_createToken src s2 s2 .BIT_XOR (by decide) rfl
                                                (Nat.le_refl _) id rfl,
                                                fun _ => lineExact_of_zero src s2 _ rfl (countNL_self src s2.current)⟩
                                            · rw [if_neg h21]
                                              by_cases h22 : c = '~'
                                              · rw [if_pos h22]
                                                exact ⟨stepOk_createToken src s2 s2 .BIT_NOT (by decide) rfl
                                                  (Nat.le_refl _) id rfl,
                                                  fun _ => lineExact_of_zero src s2 _ rfl (countNL_self src s2.current)⟩
                                              · rw [if_neg h22]
                                                by_cases h23 : c = '\''
                                                · rw [if_pos h23]
                                                  have h := isCharLiteral_facts src s2
                                                  exact ⟨h.1, fun hq => absurd h23 hq⟩
                                                · rw [if_neg h23]
                                                  by_cases h24 : c = '"'
                                                  · rw [if_pos h24]
                                                    have h := isStringLiteral_facts src s2
                                                    exact ⟨h.1, fun _ => h.2⟩
                                                  · rw [if_neg h24]
                                                    by_cases h25 : isDigit c = true
                                                    · rw [if_pos h25]
                                                      have h := isNumberLiteral_facts src s2
                                                      exact ⟨h.1, fun _ => h.2⟩
                                                    · rw [if_neg h25]
                                                      by_cases h26 : isAlpha c = true
                                                      · rw [if_pos h26]
                                                        have h := isIdentifier_facts src s2
                                                        exact ⟨h.1, fun _ => h.2⟩
                                                      · rw [if_neg h26]
                                                        exact ⟨stepOk_errorToken src s2 s2 msgUnexpected rfl (Nat.le_refl _) id rfl,
                                                          fun _ => lineExact_of_zero src s2 _ rfl (countNL_self src s2.current)⟩

/-! The two shapes of a `scanToken` call: the Eof branch at the terminator,
or one dispatch step on the first significant byte. -/

theorem eofState_start (src : List Char) (s : Scanner) :
    (eofState src s).start = (skipWhitespace src s).current := rfl

theorem eofState_current (src : List Char) (s : Scanner) :
    (eofState src s).current = (skipWhitespace src s).current := rfl

theorem eofState_line (src : List Char) (s : Scanner) :
    (eofState src s).line = (skipWhitespace src s).line := rfl

theorem dispatchState_start (src : List Char) (s : Scanner) :
    (dispatchState src s).start = (skipWhitespace src s).current := rfl

theorem dispatchState_current (src : List Char) (s : Scanner) :
    (dispatchState src s).current = (skipWhitespace src s).current + 1 := rfl

theorem dispatchState_line (src : List Char) (s : Scanner) :
    (dispatchState src s).line = (skipWhitespace src s).line := rfl

theorem scanToken_cases (src : List Char) (s : Scanner) :
    (byteAt src (skipWhitespace src s).current = NUL ∧
      scanToken src s = (createToken .EOF (eofState src s), eofState src s)) ∨
    (byteAt src (skipWhitespace src s).current ≠ NUL ∧
      scanToken src s =
        dispatchOn src (byteAt src (skipWhitespace src s).current)
          (dispatchState src s)) := by
  simp only [scanToken]
  by_cases h : isAtEnd src
      { skipWhitespace src s with start := (skipWhitespace src s).current } = true
  · left
    refine ⟨by simpa [isAtEnd] using h, ?_⟩
    rw [if_pos h]
    rfl
  · right
    have hne : byteAt src (skipWhitespace src s).current ≠ NUL := by
      simpa [isAtEnd] using h
    refine ⟨hne, ?_⟩
    rw [if_neg h]
    have hadv : adv src
        { skipWhitespace src s with start := (skipWhitespace src s).current } =
        dispatchState src s :=
      adv_of_ne src _ hne
    rw [hadv]
    rfl

theorem scanToken_start (src : List Char) (s : Scanner) :
    (scanToken src s).2.start = (skipWhitespace src s).current := by
  rcases scanToken_cases src s with ⟨h, he⟩ | ⟨h, he⟩
  · rw [he]
    exact eofState_start src s
  · rw [he]
    rw [(dispatchOn_master src _ _).1.startEq]
    exact dispatchState_start src s

theorem scanToken_mono (src : List Char) (s : Scanner) :
    (skipWhitespace src s).current ≤ (scanToken src s).2.current := by
  rcases scanToken_cases src s with ⟨h, he⟩ | ⟨h, he⟩
  · rw [he]
    rw [eofState_current src s]
  · rw [he]
    have h1 := (dispatchOn_master src
      (byteAt src (skipWhitespace src s).current) (dispatchState src s)).1.mono
    rw [dispatchState_current src s] at h1
    omega

theorem scanToken_bound (src : List Char) (s : Scanner)
    (hb : s.current ≤ src.length) :
    (scanToken src s).2.current ≤ src.length := by
  have hs0 := skipWhitespace_bound src s hb
  rcases scanToken_cases src s with ⟨h, he⟩ | ⟨h, he⟩
  · rw [he]
    rw [eofState_current src s]
    exact hs0
  · rw [he]
    have hlt := byteAt_lt_of_ne src _ h
    exact (dispatchOn_master src _ _).1.bound
      (by rw [dispatchState_current src s]; omega)

theorem scanToken_tokLine (src : List Char) (s : Scanner) :
    (scanToken src s).1.line = (scanToken src s).2.line := by
  rcases scanToken_cases src s with ⟨h, he⟩ | ⟨h, he⟩
  · rw [he]
    rfl
  · rw [he]
    exact (dispatchOn_master src _ _).1.tokLine

theorem scanToken_lineMono (src : List Char) (s : Scanner) :
    s.line ≤ (scanToken src s).2.line := by
  have hsk := skipWhitespace_line src s
  rcases scanToken_cases src s with ⟨h, he⟩ | ⟨h, he⟩
  · rw [he]
    rw [eofState_line src s]
    omega
  · rw [he]
    have h1 := (dispatchOn_master src
      (byteAt src (skipWhitespace src s).current) (dispatchState src s)).1.lineMono
    rw [dispatchState_line src s] at h1
    omega

theorem scanToken_lineLe (src : List Char) (s : Scanner) :
    (scanToken src s).2.line ≤
      s.line + countNL src s.current (scanToken src s).2.current := by
  have hsk := skipWhitespace_line src s
  have hskm := skipWhitespace_mono src s
  rcases scanToken_cases src s with ⟨h, he⟩ | ⟨h, he⟩
  · rw [he]
    rw [eofState_line src s, eofState_current src s]
    omega
  · rw [he]
    have hok := (dispatchOn_master src
      (byteAt src (skipWhitespace src s).current) (dispatchState src s)).1
    have h1 := hok.lineLe
    have h2 := hok.mono
    simp only [dispatchState_line, dispatchState_current] at h1 h2
    have hpost := skipWhitespace_post src s
    have hone : countNL src (skipWhitespace src s).current
        ((skipWhitespace src s).current + 1) = 0 :=
      countNL_single_ne src _ hpost
    have hs1 := countNL_split src s.current (skipWhitespace src s).current
      ((skipWhitespace src s).current + 1) hskm (Nat.le_succ _)
    have hs2 := countNL_split src s.current ((skipWhitespace src s).current + 1)
      (dispatchOn src (byteAt src (skipWhitespace src s).current)
        (dispatchState src s)).2.current (by omega) h2
    omega

theorem scanToken_lineExact (src : List Char) (s : Scanner)
    (hq : byteAt src (skipWhitespace src s).current ≠ '\'') :
    (scanToken src s).2.line =
      s.line + countNL src s.current (scanToken src s).2.current := by
  have hsk := skipWhitespace_line src s
  have hskm := skipWhitespace_mono src s
  rcases scanToken_cases src s with ⟨h, he⟩ | ⟨h, he⟩
  · rw [he]
    rw [eofState_line src s, eofState_current src s]
    exact hsk
  · rw [he]
    have hm := dispatchOn_master src
      (byteAt src (skipWhitespace src s).current) (dispatchState src s)
    have h1 : (dispatchOn src (byteAt src (skipWhitespace src s).current)
        (dispatchState src s)).2.line = (dispatchState src s).line +
          countNL src (dispatchState src s).current
            (dispatchOn src (byteAt src (skipWhitespace src s).current)
              (dispatchState src s)).2.current := hm.2 hq
    have h2 := hm.1.mono
    simp only [dispatchState_line, dispatchState_current] at h1 h2
    have hpost := skipWhitespace_post src s
    have hone : countNL src (skipWhitespace src s).current
        ((skipWhitespace src s).current + 1) = 0 :=
      countNL_single_ne src _ hpost
    have hs1 := countNL_split src s.current (skipWhitespace src s).current
      ((skipWhitespace src s).current + 1) hskm (Nat.le_succ _)
    have hs2 := countNL_split src s.current ((skipWhitespace src s).current + 1)
      (dispatchOn src (byteAt src (skipWhitespace src s).current)
        (dispatchState src s)).2.current (by omega) h2
    omega

theorem scanToken_span (src : List Char) (s : Scanner) (b : Nat)
    (hb : (scanToken src s).1.start = .buf b) :
    b = (scanToken src s).2.start ∧
      (scanToken src s).1.length =
        (scanToken src s).2.current - (scanToken src s).2.start := by
  rcases scanToken_cases src s with ⟨h, he⟩ | ⟨h, he⟩
  · rw [he] at hb ⊢
    simp only [createToken, TokenStart.buf.injEq] at hb
    exact ⟨hb.symm, rfl⟩
  · rw [he] at hb ⊢
    exact (dispatchOn_master src _ _).1.span b hb

theorem scanToken_eof_iff (src : List Char) (s : Scanner) :
    (scanToken src s).1.token = .EOF ↔
      byteAt src (skipWhitespace src s).current = NUL := by
  rcases scanToken_cases src s with ⟨h, he⟩ | ⟨h, he⟩
  · rw [he]
    simp [createToken, h]
  · rw [he]
    constructor
    · intro hc
      exact absurd hc (dispatchOn_master src _ _).1.notEof
    · intro hc
      exact absurd hc h

theorem scanToken_eof_state (src : List Char) (s : Scanner)
    (h : (scanToken src s).1.token = .EOF) :
    scanToken src s = (createToken .EOF (eofState src s), eofState src s) := by
  rcases scanToken_cases src s with ⟨hc, he⟩ | ⟨hc, he⟩
  · exact he
  · rw [he] at h
    exact absurd h (dispatchOn_master src _ _).1.notEof

theorem scanToken_progress (src : List Char) (s : Scanner)
    (h : (scanToken src s).1.token ≠ .EOF) :
    (skipWhitespace src s).current + 1 ≤ (scanToken src s).2.current := by
  rcases scanToken_cases src s with ⟨hc, he⟩ | ⟨hc, he⟩
  · rw [he] at h
    exact absurd (by simp [createToken]) h
  · rw [he]
    have h1 := (dispatchOn_master src
      (byteAt src (skipWhitespace src s).current) (dispatchState src s)).1.mono
    rw [dispatchState_current src s] at h1
    exact h1

theorem scanner_start_id (X : Scanner) (hX : X.start = X.current) :
    ({ X with start := X.current } : Scanner) = X := by
  cases X with
  | mk a b c =>
    dsimp at hX
    subst hX
    rfl

theorem byteAt_mem (src : List Char) (i : Nat) (h : i < src.length) :
    byteAt src i ∈ src := by
  have hby : byteAt src i = src.get ⟨i, h⟩ := by
    simp [byteAt, List.getD, List.getElem?_eq_getElem h]
  rw [hby]
  exact List.get_mem src i h

theorem coverage_drop (src : List Char) (hn : NUL ∉ src) (fuel : Nat) :
    ∀ s : Scanner, ∀ out : List Char, s.current ≤ src.length →
      coverage src fuel s = some out → out = src.drop s.current := by
  induction fuel with
  | zero =>
    intro s out h hc
    simp [coverage] at hc
  | succ fuel ih =>
    intro s out h hc
    rw [coverage] at hc
    split at hc
    · exact absurd hc (by simp)
    · next b heq =>
      have hspan := scanToken_span src s b heq
      have hstart := scanToken_start src s
      have hskm := skipWhitespace_mono src s
      have hskb := skipWhitespace_bound src s h
      have hmono := scanToken_mono src s
      have hbnd := scanToken_bound src s h
      have hb0 : b = (skipWhitespace src s).current := by
        rw [hspan.1, hstart]
      have hlen : b + (scanToken src s).1.length = (scanToken src s).2.current := by
        rw [hspan.2, hspan.1]
        omega
      have hpiece : slice src s.current b ++
          slice src b (b + (scanToken src s).1.length) =
          slice src s.current (scanToken src s).2.current := by
        rw [hlen]
        exact slice_append src s.current b _ (by omega) (by omega)
      split at hc
      · next heof =>
        have hnul : byteAt src (skipWhitespace src s).current = NUL :=
          (scanToken_eof_iff src s).mp heof
        have hend : (skipWhitespace src s).current = src.length := by
          by_contra hne
          have hlt : (skipWhitespace src s).current < src.length := by omega
          exact hn (hnul ▸ byteAt_mem src _ hlt)
        have hstate := scanToken_eof_state src s heof
        have hcur : (scanToken src s).2.current = src.length := by
          rw [hstate, eofState_current]
          exact hend
        have hout : out = slice src s.current (scanToken src s).2.current := by
          rw [← hpiece]
          exact (Option.some.injEq _ _).mp hc.symm
        rw [hout, hcur, slice_to_end]
      · split at hc
        · exact absurd hc (by simp)
        · next rest hrest =>
          have hrec := ih (scanToken src s).2 rest hbnd hrest
          have hout : out = slice src s.current (scanToken src s).2.current ++
              rest := by
            rw [← hpiece]
            exact (Option.some.injEq _ _).mp hc.symm
          rw [hout, hrec, slice_append_drop src s.current _ (by omega)]

theorem slice_single_of_eq (src : List Char) (a b : Nat) (hb : b = a + 1)
    (ha : a < src.length) : slice src a b = [byteAt src a] := by
  subst hb
  exact slice_single src a ha

theorem checkKeyword_spec (src : List Char) (s : Scanner) (off len : Nat)
    (pre rest : List Char) (tt : TokenType)
    (hoff : pre.length = off) (hlen : rest.length = len)
    (hpre : slice src s.start (s.start + off) = pre)
    (hcur : s.start + off ≤ s.current) (hb : s.current ≤ src.length) :
    checkKeyword src s off len rest tt =
      if slice src s.start s.current = pre ++ rest then tt
      else .IDENTIFIER := by
  have hsl : s.current = s.start + off + len →
      slice src (s.start + off) s.current = (src.drop (s.start + off)).take len := by
    intro he
    unfold slice
    congr 1
    omega
  have hslen := slice_length src s.start s.current hb
  have fwd : s.current - s.start = off + len ∧
      (src.drop (s.start + off)).take len = rest →
      slice src s.start s.current = pre ++ rest := by
    rintro ⟨hL, hM⟩
    have hce : s.current = s.start + off + len := by omega
    rw [← slice_append src s.start (s.start + off) s.current
        (Nat.le_add_right _ _) hcur, hpre]
    congr 1
    rw [hsl hce]
    exact hM
  have bwd : slice src s.start s.current = pre ++ rest →
      s.current - s.start = off + len ∧
      (src.drop (s.start + off)).take len = rest := by
    intro hT
    have h0 := hslen
    rw [hT, List.length_append, hoff, hlen] at h0
    have hL : s.current - s.start = off + len := by omega
    have hce : s.current = s.start + off + len := by omega
    have hsplit : slice src s.start (s.start + off) ++
        slice src (s.start + off) s.current = slice src s.start s.current :=
      slice_append src s.start (s.start + off) s.current
        (Nat.le_add_right _ _) hcur
    rw [hpre, hT] at hsplit
    have h3 : slice src (s.start + off) s.current = rest :=
      List.append_cancel_left hsplit
    exact ⟨hL, by rw [← hsl hce]; exact h3⟩
  unfold checkKeyword
  by_cases ht : slice src s.start s.current = pre ++ rest
  · rw [if_pos ht, if_pos (bwd ht)]
  · rw [if_neg ht, if_neg (fun hc => ht (fwd hc))]

theorem identifierType_spec (src : List Char) (s : Scanner)
    (h1 : s.start < s.current) (h2 : s.current ≤ src.length) :
    identifierType src s = keywordSpec (slice src s.start s.current) := by
  have hlt0 : s.start < src.length := by omega
  have hs0 : slice src s.start s.current =
      byteAt src s.start :: slice src (s.start + 1) s.current :=
    slice_cons src s.start s.current h1 hlt0
  unfold identifierType
  by_cases hB0 : byteAt src s.start = 'b'
  · rw [if_pos hB0]
    rw [if_pos (show s.current > s.start - 1 by omega)]
    by_cases hl : s.current - s.start > 1
    · have hlt1 : s.start + 1 < src.length := by omega
      have hs1 : slice src (s.start + 1) s.current =
          byteAt src (s.start + 1) :: slice src (s.start + 2) s.current :=
        slice_cons src (s.start + 1) s.current (by omega) hlt1
      by_cases hc1 : byteAt src (s.start + 1) = 'o'
      · rw [if_pos hc1]
        rw [checkKeyword_spec src s 2 2 ['b', 'o'] ['o', 'l'] .BOOL rfl rfl
          (by rw [slice_cons src s.start (s.start + 2) (by omega) hlt0, slice_single_of_eq src (s.start + 1) (s.start + 2) (by omega) hlt1, hB0, hc1]) (by omega) h2]
        rw [hs0, hs1, hB0, hc1]
        simp [keywordSpec]
      · rw [if_neg hc1]
        by_cases hc2 : byteAt src (s.start + 1) = 'r'
        · rw [if_pos hc2]
          rw [checkKeyword_spec src s 2 3 ['b', 'r'] ['e', 'a', 'k'] .BREAK rfl rfl
            (by rw [slice_cons src s.start (s.start + 2) (by omega) hlt0, slice_single_of_eq src (s.start + 1) (s.start + 2) (by omega) hlt1, hB0, hc2]) (by omega) h2]
          rw [hs0, hs1, hB0, hc2]
          simp [keywordSpec]
        · rw [if_neg hc2]
          rw [hs0, hs1, hB0]
          simp [keywordSpec, hc1, hc2]
    · have hcur1 : s.current = s.start + 1 := by omega
      have hemp : slice src (s.start + 1) s.current = [] := by
        rw [hcur1]; exact slice_self src _
      have hks : keywordSpec (slice src s.start s.current) = .IDENTIFIER := by
        rw [hs0, hemp, hB0]; simp [keywordSpec]
      rw [hks]
      by_cases hc1 : byteAt src (s.start + 1) = 'o'
      · rw [if_pos hc1]
        unfold checkKeyword
        rw [if_neg]
        rintro ⟨hx, hy⟩
        omega
      · rw [if_neg hc1]
        by_cases hc2 : byteAt src (s.start + 1) = 'r'
        · rw [if_pos hc2]
          unfold checkKeyword
          rw [if_neg]
          rintro ⟨hx, hy⟩
          omega
        · rw [if_neg hc2]
  · rw [if_neg hB0]
    by_cases hB1 : byteAt src s.start = 'c'
    · rw [if_pos hB1]
      by_cases hl : s.current - s.start > 1
      · rw [if_pos hl]
        have hlt1 : s.start + 1 < src.length := by omega
        have hs1 : slice src (s.start + 1) s.current =
            byteAt src (s.start + 1) :: slice src (s.start + 2) s.current :=
          slice_cons src (s.start + 1) s.current (by omega) hlt1
        by_cases hc1 : byteAt src (s.start + 1) = 'h'
        · rw [if_pos hc1]
          rw [checkKeyword_spec src s 2 2 ['c', 'h'] ['a', 'r'] .CHAR rfl rfl
            (by rw [slice_cons src s.start (s.start + 2) (by omega) hlt0, slice_single_of_eq src (s.start + 1) (s.start + 2) (by omega) hlt1, hB1, hc1]) (by omega) h2]
          rw [hs0, hs1, hB1, hc1]
          simp [keywordSpec]
        · rw [if_neg hc1]
          by_cases hc2 : byteAt src (s.start + 1) = 'o'
          · rw [if_pos hc2]
            by_cases hn2 : s.current - s.start > 2 ∧ byteAt src (s.start + 2) = 'n'
            · rw [if_pos hn2]
              obtain ⟨hgt2, hcn⟩ := hn2
              have hlt2 : s.start + 2 < src.length := by omega
              have hs2 : slice src (s.start + 2) s.current =
                  byteAt src (s.start + 2) :: slice src (s.start + 3) s.current :=
                slice_cons src (s.start + 2) s.current (by omega) hlt2
              by_cases hl3 : s.current - s.start > 3
              · rw [if_pos hl3]
                have hlt3 : s.start + 3 < src.length := by omega
                have hs3 : slice src (s.start + 3) s.current =
                    byteAt src (s.start + 3) :: slice src (s.start + 4) s.current :=
                  slice_cons src (s.start + 3) s.current (by omega) hlt3
                by_cases hc3 : byteAt src (s.start + 3) = 's'
                · rw [if_pos hc3]
                  rw [checkKeyword_spec src s 4 1 ['c', 'o', 'n', 's'] ['t'] .CONST rfl rfl
                    (by rw [slice_cons src s.start (s.start + 4) (by omega) hlt0, slice_cons src (s.start + 1) (s.start + 4) (by omega) hlt1, slice_cons src (s.start + 2) (s.start + 4) (by omega) hlt2, slice_single_of_eq src (s.start + 3) (s.start + 4) (by omega) hlt3, hB1, hc2, hcn, hc3]) (by omega) h2]
                  rw [hs0, hs1, hs2, hs3, hB1, hc2, hcn, hc3]
                  simp [keywordSpec]
                · rw [if_neg hc3]
                  by_cases hc4 : byteAt src (s.start + 3) = 't'
                  · rw [if_pos hc4]
                    rw [checkKeyword_spec src s 4 4 ['c', 'o', 'n', 't'] ['i', 'n', 'u', 'e'] .CONTINUE rfl rfl
                      (by rw [slice_cons src s.start (s.start + 4) (by omega) hlt0, slice_cons src (s.start + 1) (s.start + 4) (by omega) hlt1, slice_cons src (s.start + 2) (s.start + 4) (by omega) hlt2, slice_single_of_eq src (s.start + 3) (s.start + 4) (by omega) hlt3, hB1, hc2, hcn, hc4]) (by omega) h2]
                    rw [hs0, hs1, hs2, hs3, hB1, hc2, hcn, hc4]
                    simp [keywordSpec]
                  · rw [if_neg hc4]
                    rw [hs0, hs1, hs2, hs3, hB1, hc2, hcn]
                    simp [keywordSpec, hc3, hc4]
              · rw [if_neg hl3]
                have hcur3 : s.current = s.start + 3 := by omega
                have hemp3 : slice src (s.start + 3) s.current = [] := by
                  rw [hcur3]; exact slice_self src _
                rw [hs0, hs1, hs2, hemp3, hB1, hc2, hcn]
                simp [keywordSpec]
            · rw [if_neg hn2]
              rcases not_and_or.mp hn2 with hng | hnn
              · have hcur2 : s.current = s.start + 2 := by omega
                have hemp2 : slice src (s.start + 2) s.current = [] := by
                  rw [hcur2]; exact slice_self src _
                rw [hs0, hs1, hemp2, hB1, hc2]
                simp [keywordSpec]
              · by_cases hg2 : s.current - s.start > 2
                · have hlt2 : s.start + 2 < src.length := by omega
                  have hs2 : slice src (s.start + 2) s.current =
                      byteAt src (s.start + 2) :: slice src (s.start + 3) s.current :=
                    slice_cons src (s.start + 2) s.current (by omega) hlt2
                  rw [hs0, hs1, hs2, hB1, hc2]
                  simp [keywordSpec, hnn]
                · have hcur2 : s.current = s.start + 2 := by omega
                  have hemp2 : slice src (s.start + 2) s.current = [] := by
                    rw [hcur2]; exact slice_self src _
                  rw [hs0, hs1, hemp2, hB1, hc2]
                  simp [keywordSpec]
          · rw [if_neg hc2]
            rw [hs0, hs1, hB1]
            simp [keywordSpec, hc1, hc2]
      · rw [if_neg hl]
        have hcur1 : s.current = s.start + 1 := by omega
        have hemp : slice src (s.start + 1) s.current = [] := by
          rw [hcur1]; exact slice_self src _
        rw [hs0, hemp, hB1]
        simp [keywordSpec]
    · rw [if_neg hB1]
      by_cases hB2 : byteAt src s.start = 'd'
      · rw [if_pos hB2]
        rw [checkKeyword_spec src s 1 1 ['d'] ['o'] .DO rfl rfl
          (by rw [slice_single src s.start hlt0, hB2]) (by omega) h2]
        rw [hs0, hB2]
        simp [keywordSpec]
      · rw [if_neg hB2]
        by_cases hB3 : byteAt src s.start = 'e'
        · rw [if_pos hB3]
          rw [checkKeyword_spec src s 1 3 ['e'] ['l', 's', 'e'] .ELSE rfl rfl
            (by rw [slice_single src s.start hlt0, hB3]) (by omega) h2]
          rw [hs0, hB3]
          simp [keywordSpec]
        · rw [if_neg hB3]
          by_cases hB4 : byteAt src s.start = 'f'
          · rw [if_pos hB4]
            by_cases hl : s.current - s.start > 1
            · rw [if_pos hl]
              have hlt1 : s.start + 1 < src.length := by omega
              have hs1 : slice src (s.start + 1) s.current =
                  byteAt src (s.start + 1) :: slice src (s.start + 2) s.current :=
                slice_cons src (s.start + 1) s.current (by omega) hlt1
              by_cases hc1 : byteAt src (s.start + 1) = 'a'
              · rw [if_pos hc1]
                rw [checkKeyword_spec src s 2 3 ['f', 'a'] ['l', 's', 'e'] .FALSE rfl rfl
                  (by rw [slice_cons src s.start (s.start + 2) (by omega) hlt0, slice_single_of_eq src (s.start + 1) (s.start + 2) (by omega) hlt1, hB4, hc1]) (by omega) h2]
                rw [hs0, hs1, hB4, hc1]
                simp [keywordSpec]
              · rw [if_neg hc1]
                by_cases hc2 : byteAt src (s.start + 1) = 'n'
                · rw [if_pos hc2]
                  rw [checkKeyword_spec src s 2 0 ['f', 'n'] [] .FN rfl rfl
                    (by rw [slice_cons src s.start (s.start + 2) (by omega) hlt0, slice_single_of_eq src (s.start + 1) (s.start + 2) (by omega) hlt1, hB4, hc2]) (by omega) h2]
                  rw [hs0, hs1, hB4, hc2]
                  simp [keywordSpec]
                · rw [if_neg hc2]
                  by_cases hc3 : byteAt src (s.start + 1) = 'o'
                  · rw [if_pos hc3]
                    rw [checkKeyword_spec src s 2 1 ['f', 'o'] ['r'] .FOR rfl rfl
                      (by rw [slice_cons src s.start (s.start + 2) (by omega) hlt0, slice_single_of_eq src (s.start + 1) (s.start + 2) (by omega) hlt1, hB4, hc3]) (by omega) h2]
                    rw [hs0, hs1, hB4, hc3]
                    simp [keywordSpec]
                  · rw [if_neg hc3]
                    by_cases hc4 : byteAt src (s.start + 1) = '3'
                    · rw [if_pos hc4]
                      rw [checkKeyword_spec src s 2 1 ['f', '3'] ['2'] .F32 rfl rfl
                        (by rw [slice_cons src s.start (s.start + 2) (by omega) hlt0, slice_single_of_eq src (s.start + 1) (s.start + 2) (by omega) hlt1, hB4, hc4]) (by omega) h2]
                      rw [hs0, hs1, hB4, hc4]
                      simp [keywordSpec]
                    · rw [if_neg hc4]
                      by_cases hc5 : byteAt src (s.start + 1) = '6'
                      · rw [if_pos hc5]
                        rw [checkKeyword_spec src s 2 1 ['f', '6'] ['4'] .F64 rfl rfl
                          (by rw [slice_cons src s.start (s.start + 2) (by omega) hlt0, slice_single_of_eq src (s.start + 1) (s.start + 2) (by omega) hlt1, hB4, hc5]) (by omega) h2]
                        rw [hs0, hs1, hB4, hc5]
                        simp [keywordSpec]
                      · rw [if_neg hc5]
                        rw [hs0, hs1, hB4]
                        simp [keywordSpec, hc1, hc2, hc3, hc4, hc5]
            · rw [if_neg hl]
              have hcur1 : s.current = s.start + 1 := by omega
              have hemp : slice src (s.start + 1) s.current = [] := by
                rw [hcur1]; exact slice_self src _
              rw [hs0, hemp, hB4]
              simp [keywordSpec]
          · rw [if_neg hB4]
            by_cases hB5 : byteAt src s.start = 'i'
            · rw [if_pos hB5]
              by_cases hl : s.current - s.start > 1
              · rw [if_pos hl]
                have hlt1 : s.start + 1 < src.length := by omega
                have hs1 : slice src (s.start + 1) s.current =
                    byteAt src (s.start + 1) :: slice src (s.start + 2) s.current :=
                  slice_cons src (s.start + 1) s.current (by omega) hlt1
                by_cases hc1 : byteAt src (s.start + 1) = 'f'
                · rw [if_pos hc1]
                  rw [checkKeyword_spec src s 2 0 ['i', 'f'] [] .IF rfl rfl
                    (by rw [slice_cons src s.start (s.start + 2) (by omega) hlt0, slice_single_of_eq src (s.start + 1) (s.start + 2) (by omega) hlt1, hB5, hc1]) (by omega) h2]
                  rw [hs0, hs1, hB5, hc1]
                  simp [keywordSpec]
                · rw [if_neg hc1]
                  by_cases hc2 : byteAt src (s.start + 1) = 'n'
                  · rw [if_pos hc2]
                    rw [checkKeyword_spec src s 2 0 ['i', 'n'] [] .IN rfl rfl
                      (by rw [slice_cons src s.start (s.start + 2) (by omega) hlt0, slice_single_of_eq src (s.start + 1) (s.start + 2) (by omega) hlt1, hB5, hc2]) (by omega) h2]
                    rw [hs0, hs1, hB5, hc2]
                    simp [keywordSpec]
                  · rw [if_neg hc2]
                    by_cases hc3 : byteAt src (s.start + 1) = '8'
                    · rw [if_pos hc3]
                      rw [checkKeyword_spec src s 2 0 ['i', '8'] [] .I8 rfl rfl
                        (by rw [slice_cons src s.start (s.start + 2) (by omega) hlt0, slice_single_of_eq src (s.start + 1) (s.start + 2) (by omega) hlt1, hB5, hc3]) (by omega) h2]
                      rw [hs0, hs1, hB5, hc3]
                      simp [keywordSpec]
                    · rw [if_neg hc3]
                      by_cases hc4 : byteAt src (s.start + 1) = '1'
                      · rw [if_pos hc4]
                        rw [checkKeyword_spec src s 2 1 ['i', '1'] ['6'] .I16 rfl rfl
                          (by rw [slice_cons src s.start (s.start + 2) (by omega) hlt0, slice_single_of_eq src (s.start + 1) (s.start + 2) (by omega) hlt1, hB5, hc4]) (by omega) h2]
                        rw [hs0, hs1, hB5, hc4]
                        simp [keywordSpec]
                      · rw [if_neg hc4]
                        by_cases hc5 : byteAt src (s.start + 1) = '3'
                        · rw [if_pos hc5]
                          rw [checkKeyword_spec src s 2 1 ['i', '3'] ['2'] .I32 rfl rfl
                            (by rw [slice_cons src s.start (s.start + 2) (by omega) hlt0, slice_single_of_eq src (s.start + 1) (s.start + 2) (by omega) hlt1, hB5, hc5]) (by omega) h2]
                          rw [hs0, hs1, hB5, hc5]
                          simp [keywordSpec]
                        · rw [if_neg hc5]
                          by_cases hc6 : byteAt src (s.start + 1) = '6'
                          · rw [if_pos hc6]
                            rw [checkKeyword_spec src s 2 1 ['i', '6'] ['4'] .I64 rfl rfl
                              (by rw [slice_cons src s.start (s.start + 2) (by omega) hlt0, slice_single_of_eq src (s.start + 1) (s.start + 2) (by omega) hlt1, hB5, hc6]) (by omega) h2]
                            rw [hs0, hs1, hB5, hc6]
                            simp [keywordSpec]
                          · rw [if_neg hc6]
                            rw [hs0, hs1, hB5]
                            simp [keywordSpec, hc1, hc2, hc3, hc4, hc5, hc6]
              · rw [if_neg hl]
                have hcur1 : s.current = s.start + 1 := by omega
                have hemp : slice src (s.start + 1) s.current = [] := by
                  rw [hcur1]; exact slice_self src _
                rw [hs0, hemp, hB5]
                simp [keywordSpec]
            · rw [if_neg hB5]
              by_cases hB6 : byteAt src s.start = 'l'
              · rw [if_pos hB6]
                rw [checkKeyword_spec src s 1 3 ['l'] ['o', 'o', 'p'] .LOOP rfl rfl
                  (by rw [slice_single src s.start hlt0, hB6]) (by omega) h2]
                rw [hs0, hB6]
                simp [keywordSpec]
              · rw [if_neg hB6]
                by_cases hB7 : byteAt src s.start = 'm'
                · rw [if_pos hB7]
                  by_cases hl : s.current - s.start > 1
                  · rw [if_pos hl]
                    have hlt1 : s.start + 1 < src.length := by omega
                    have hs1 : slice src (s.start + 1) s.current =
                        byteAt src (s.start + 1) :: slice src (s.start + 2) s.current :=
                      slice_cons src (s.start + 1) s.current (by omega) hlt1
                    by_cases hc1 : byteAt src (s.start + 1) = 'a'
                    · rw [if_pos hc1]
                      rw [checkKeyword_spec src s 2 3 ['m', 'a'] ['t', 'c', 'h'] .MATCH rfl rfl
                        (by rw [slice_cons src s.start (s.start + 2) (by omega) hlt0, slice_single_of_eq src (s.start + 1) (s.start + 2) (by omega) hlt1, hB7, hc1]) (by omega) h2]
                      rw [hs0, hs1, hB7, hc1]
                      simp [keywordSpec]
                    · rw [if_neg hc1]
                      by_cases hc2 : byteAt src (s.start + 1) = 'u'
                      · rw [if_pos hc2]
                        rw [checkKeyword_spec src s 2 1 ['m', 'u'] ['t'] .MUT rfl rfl
                          (by rw [slice_cons src s.start (s.start + 2) (by omega) hlt0, slice_single_of_eq src (s.start + 1) (s.start + 2) (by omega) hlt1, hB7, hc2]) (by omega) h2]
                        rw [hs0, hs1, hB7, hc2]
                        simp [keywordSpec]
                      · rw [if_neg hc2]
                        rw [hs0, hs1, hB7]
                        simp [keywordSpec, hc1, hc2]
                  · rw [if_neg hl]
                    have hcur1 : s.current = s.start + 1 := by omega
                    have hemp : slice src (s.start + 1) s.current = [] := by
                      rw [hcur1]; exact slice_self src _
                    rw [hs0, hemp, hB7]
                    simp [keywordSpec]
                · rw [if_neg hB7]
                  by_cases hB8 : byteAt src s.start = 'n'
                  · rw [if_pos hB8]
                    rw [checkKeyword_spec src s 1 3 ['n'] ['u', 'l', 'l'] .NULL rfl rfl
                      (by rw [slice_single src s.start hlt0, hB8]) (by omega) h2]
                    rw [hs0, hB8]
                    simp [keywordSpec]
                  · rw [if_neg hB8]
                    by_cases hB9 : byteAt src s.start = 'r'
                    · rw [if_pos hB9]
                      rw [checkKeyword_spec src s 1 5 ['r'] ['e', 't', 'u', 'r', 'n'] .RETURN rfl rfl
                        (by rw [slice_single src s.start hlt0, hB9]) (by omega) h2]
                      rw [hs0, hB9]
                      simp [keywordSpec]
                    · rw [if_neg hB9]
                      by_cases hB10 : byteAt src s.start = 's'
                      · rw [if_pos hB10]
                        rw [checkKeyword_spec src s 1 5 ['s'] ['t', 'r', 'i', 'n', 'g'] .STRING rfl rfl
                          (by rw [slice_single src s.start hlt0, hB10]) (by omega) h2]
                        rw [hs0, hB10]
                        simp [keywordSpec]
                      · rw [if_neg hB10]
                        by_cases hB11 : byteAt src s.start = 't'
                        · rw [if_pos hB11]
                          rw [checkKeyword_spec src s 1 3 ['t'] ['r', 'u', 'e'] .TRUE rfl rfl
                            (by rw [slice_single src s.start hlt0, hB11]) (by omega) h2]
                          rw [hs0, hB11]
                          simp [keywordSpec]
                        · rw [if_neg hB11]
                          by_cases hB12 : byteAt src s.start = 'u'
                          · rw [if_pos hB12]
                            by_cases hl : s.current - s.start > 1
                            · rw [if_pos hl]
                              have hlt1 : s.start + 1 < src.length := by omega
                              have hs1 : slice src (s.start + 1) s.current =
                                  byteAt src (s.start + 1) :: slice src (s.start + 2) s.current :=
                                slice_cons src (s.start + 1) s.current (by omega) hlt1
                              by_cases hc1 : byteAt src (s.start + 1) = '8'
                              · rw [if_pos hc1]
                                rw [checkKeyword_spec src s 2 0 ['u', '8'] [] .U8 rfl rfl
                                  (by rw [slice_cons src s.start (s.start + 2) (by omega) hlt0, slice_single_of_eq src (s.start + 1) (s.start + 2) (by omega) hlt1, hB12, hc1]) (by omega) h2]
                                rw [hs0, hs1, hB12, hc1]
                                simp [keywordSpec]
                              · rw [if_neg hc1]
                                by_cases hc2 : byteAt src (s.start + 1) = '1'
                                · rw [if_pos hc2]
                                  rw [checkKeyword_spec src s 2 1 ['u', '1'] ['6'] .U16 rfl rfl
                                    (by rw [slice_cons src s.start (s.start + 2) (by omega) hlt0, slice_single_of_eq src (s.start + 1) (s.start + 2) (by omega) hlt1, hB12, hc2]) (by omega) h2]
                                  rw [hs0, hs1, hB12, hc2]
                                  simp [keywordSpec]
                                · rw [if_neg hc2]
                                  by_cases hc3 : byteAt src (s.start + 1) = '3'
                                  · rw [if_pos hc3]
                                    rw [checkKeyword_spec src s 2 1 ['u', '3'] ['2'] .U32 rfl rfl
                                      (by rw [slice_cons src s.start (s.start + 2) (by omega) hlt0, slice_single_of_eq src (s.start + 1) (s.start + 2) (by omega) hlt1, hB12, hc3]) (by omega) h2]
                                    rw [hs0, hs1, hB12, hc3]
                                    simp [keywordSpec]
                                  · rw [if_neg hc3]
                                    by_cases hc4 : byteAt src (s.start + 1) = '6'
                                    · rw [if_pos hc4]
                                      rw [checkKeyword_spec src s 2 1 ['u', '6'] ['4'] .U64 rfl rfl
                                        (by rw [slice_cons src s.start (s.start + 2) (by omega) hlt0, slice_single_of_eq src (s.start + 1) (s.start + 2) (by omega) hlt1, hB12, hc4]) (by omega) h2]
                                      rw [hs0, hs1, hB12, hc4]
                                      simp [keywordSpec]
                                    · rw [if_neg hc4]
                                      rw [hs0, hs1, hB12]
                                      simp [keywordSpec, hc1, hc2, hc3, hc4]
                            · rw [if_neg hl]
                              have hcur1 : s.current = s.start + 1 := by omega
                              have hemp : slice src (s.start + 1) s.current = [] := by
                                rw [hcur1]; exact slice_self src _
                              rw [hs0, hemp, hB12]
                              simp [keywordSpec]
                          · rw [if_neg hB12]
                            by_cases hB13 : byteAt src s.start = 'v'
                            · rw [if_pos hB13]
                              rw [checkKeyword_spec src s 1 3 ['v'] ['o', 'i', 'd'] .VOID rfl rfl
                                (by rw [slice_single src s.start hlt0, hB13]) (by omega) h2]
                              rw [hs0, hB13]
                              simp [keywordSpec]
                            · rw [if_neg hB13]
                              by_cases hB14 : byteAt src s.start = 'w'
                              · rw [if_pos hB14]
                                rw [checkKeyword_spec src s 1 4 ['w'] ['h', 'i', 'l', 'e'] .WHILE rfl rfl
                                  (by rw [slice_single src s.start hlt0, hB14]) (by omega) h2]
                                rw [hs0, hB14]
                                simp [keywordSpec]
                              · rw [if_neg hB14]
                                rw [hs0]
                                simp [keywordSpec, hB0, hB1, hB2, hB3, hB4, hB5, hB6, hB7, hB8, hB9, hB10, hB11, hB12, hB13, hB14]

/-- C7: an identifier-shaped lexeme is classified as a keyword token kind
exactly when it is character-for-character equal to one of the fixed
reserved words (the keyword trie agrees with the exact-match table
`keywordSpec` on every lexeme), and concretely: "for" is the for-keyword,
"forest", "i32x" and "i3" are plain identifiers, and "i32" is the
i32-keyword. -/
theorem c7_keyword_exactness :
    (∀ (src : List Char) (s : Scanner), s.start < s.current →
      s.current ≤ src.length →
      identifierType src s = keywordSpec (slice src s.start s.current)) ∧
    (scanToken ['f', 'o', 'r'] ⟨0, 0, 1⟩).1.token = .FOR ∧
    (scanToken ['f', 'o', 'r', 'e', 's', 't'] ⟨0, 0, 1⟩).1.token =
      .IDENTIFIER ∧
    (scanToken ['i', '3', '2'] ⟨0, 0, 1⟩).1.token = .I32 ∧
    (scanToken ['i', '3', '2', 'x'] ⟨0, 0, 1⟩).1.token = .IDENTIFIER ∧
    (scanToken ['i', '3'] ⟨0, 0, 1⟩).1.token = .IDENTIFIER :=
  ⟨fun src s ha hb => identifierType_spec src s ha hb,
    by decide, by decide, by decide, by decide, by decide⟩

/-- C7 witness: the keyword-exactness equation applied to the concrete
lexeme "for". -/
theorem c7_witness :
    identifierType ['f', 'o', 'r'] ⟨0, 3, 1⟩ =
      keywordSpec (slice ['f', 'o', 'r'] 0 3) :=
  c7_keyword_exactness.1 ['f', 'o', 'r'] ⟨0, 3, 1⟩ (by decide) (by decide)

/-! Claim theorems. -/

/-- C1 (amended): for every NUL-free input buffer whose scan up to the
first Eof token produces no error token, concatenating the whitespace and
comment regions skipped before each token with the buffer spans the tokens
themselves report reconstructs the original buffer exactly, in order, with
no gaps and no overlaps (`coverage` returns `some` exactly in the
error-free case, re-assembling the buffer from the reported spans). -/
theorem c1_coverage_reconstructs (src out : List Char) (fuel : Nat)
    (hn : NUL ∉ src) (hc : coverage src fuel ⟨0, 0, 1⟩ = some out) :
    out = src := by
  have h := coverage_drop src hn fuel ⟨0, 0, 1⟩ out (Nat.zero_le _) hc
  simpa using h

/-- C1 witness: the theorem applied to the buffer "x = 10;", whose scan is
error-free; the reported spans plus skipped gaps rebuild the buffer. -/
theorem c1_witness :
    NUL ∉ ['x', ' ', '=', ' ', '1', '0', ';'] ∧
    coverage ['x', ' ', '=', ' ', '1', '0', ';'] 10 ⟨0, 0, 1⟩ =
      some ['x', ' ', '=', ' ', '1', '0', ';'] ∧
    ['x', ' ', '=', ' ', '1', '0', ';'] = ['x', ' ', '=', ' ', '1', '0', ';'] :=
  ⟨by decide, by decide,
    c1_coverage_reconstructs ['x', ' ', '=', ' ', '1', '0', ';']
      ['x', ' ', '=', ' ', '1', '0', ';'] 10 (by decide) (by decide)⟩

/-- C1 counterexample: on the buffer "@" the scan produces an error token
whose `start`/`length` hold the static diagnostic message, not a buffer
span, so the token spans cannot reconstruct the buffer — the consumed byte
`@` appears in no reported span.  This refutes the claim for inputs whose
scan contains an error token. -/
theorem c1_error_token_has_no_span :
    (scanToken ['@'] ⟨0, 0, 1⟩).1.token = .ERROR ∧
    (scanToken ['@'] ⟨0, 0, 1⟩).1.start = .msg msgUnexpected ∧
    coverage ['@'] 2 ⟨0, 0, 1⟩ = none ∧
    (scanToken ['@'] (scanToken ['@'] ⟨0, 0, 1⟩).2).1.token = .EOF := by decide

/-- C10: the interpreter lexer's `peekNext` dereferences the byte after
the cursor unconditionally, so with the cursor on the buffer terminator it
reads one byte past the end of the allocation (`none` in the checked-read
model); the shared lexer's `peekNext` guards with `isAtEnd` and returns
the sentinel without any out-of-bounds read, as the specification
requires.  Away from the terminator both return the byte after the
current one without consuming anything. -/
theorem c10_peeknext_checked_reads :
    peekNextChecked ['a'] ⟨0, 1, 1⟩ = none ∧
    sharedPeekNextChecked ['a'] ⟨0, 1, 1⟩ = some NUL ∧
    peekNextChecked ['a', 'b'] ⟨0, 0, 1⟩ = some 'b' ∧
    sharedPeekNextChecked ['a', 'b'] ⟨0, 0, 1⟩ = some 'b' := by decide

/-- C8 (amended): in the shared lexer, a backslash inside a string literal
followed by a byte outside the recognized escape set produces the error
token "Invalid escape sequence.", and a backslash immediately followed by
end-of-input produces "Unterminated string after escape."; the interpreter
lexer has no end-of-input check after the backslash and reports "Invalid
escape sequence." in both situations. -/
theorem c8_string_escape_errors :
    (∀ (src : List Char) (s : Scanner) (fuel : Nat),
      byteAt src s.current = '\\' → byteAt src (s.current + 1) = NUL →
        (sharedIsStringLiteralF src (fuel + 1) s).1 =
          errorToken msgUntermEscape { s with current := s.current + 1 }) ∧
    (∀ (src : List Char) (s : Scanner) (fuel : Nat),
      byteAt src s.current = '\\' →
      isEscapeChar (byteAt src (s.current + 1)) = false →
      byteAt src (s.current + 1) ≠ NUL →
        (sharedIsStringLiteralF src (fuel + 1) s).1 =
          errorToken msgInvalidEscape { s with current := s.current + 1 }) ∧
    (∀ (src : List Char) (s : Scanner) (fuel : Nat),
      byteAt src s.current = '\\' →
      isEscapeChar (byteAt src (s.current + 1)) = false →
        (isStringLiteralF src (fuel + 1) s).1 =
          errorToken msgInvalidEscape { s with current := s.current + 1 }) ∧
    (sharedScanToken ['"', '\\'] ⟨0, 0, 1⟩).1.start = .msg msgUntermEscape ∧
    (sharedScanToken ['"', '\\', 'q', '"'] ⟨0, 0, 1⟩).1.start =
      .msg msgInvalidEscape ∧
    (scanToken ['"', '\\'] ⟨0, 0, 1⟩).1.start = .msg msgInvalidEscape := by
  have hbs : ∀ (src : List Char) (s : Scanner),
      byteAt src s.current = '\\' →
      (peek src s ≠ '"' ∧ ¬ (isAtEnd src s = true)) ∧ peek src s ≠ '\n' ∧
        peek src s = '\\' ∧ byteAt src s.current ≠ NUL := by
    intro src s hc
    refine ⟨⟨?_, ?_⟩, ?_, ?_, ?_⟩
    · show byteAt src s.current ≠ '"'
      rw [hc]; decide
    · show ¬ (isAtEnd src s = true)
      simp [isAtEnd, hc]
      decide
    · show byteAt src s.current ≠ '\n'
      rw [hc]; decide
    · exact hc
    · rw [hc]; decide
  refine ⟨?_, ?_, ?_, ?_, ?_, ?_⟩
  · intro src s fuel hc hnul
    obtain ⟨hloop, hn, hpk, hne⟩ := hbs src s hc
    rw [sharedIsStringLiteralF, if_pos hloop, if_neg hn, if_pos hpk,
      adv_of_ne src s hne]
    rw [if_pos (show isAtEnd src { s with current := s.current + 1 } = true by
      simp [isAtEnd, hnul])]
  · intro src s fuel hc hesc hnul2
    obtain ⟨hloop, hn, hpk, hne⟩ := hbs src s hc
    rw [sharedIsStringLiteralF, if_pos hloop, if_neg hn, if_pos hpk,
      adv_of_ne src s hne]
    rw [if_neg (show ¬ isAtEnd src { s with current := s.current + 1 } = true by
      simp [isAtEnd, hnul2])]
    rw [if_neg (show ¬ isEscapeChar
      (peek src { s with current := s.current + 1 }) = true by
      show ¬ isEscapeChar (byteAt src (s.current + 1)) = true
      simp [hesc])]
  · intro src s fuel hc hesc
    obtain ⟨hloop, hn, hpk, hne⟩ := hbs src s hc
    rw [isStringLiteralF, if_pos hloop, if_neg hn, if_pos hpk,
      adv_of_ne src s hne]
    rw [if_neg (show ¬ isEscapeChar
      (peek src { s with current := s.current + 1 }) = true by
      show ¬ isEscapeChar (byteAt src (s.current + 1)) = true
      simp [hesc])]
  · decide
  · decide
  · decide

/-- C8 witness: the shared and interpreter string scanners applied to the
concrete buffers backslash-at-end and backslash-q. -/
theorem c8_witness :
    (sharedIsStringLiteralF ['\\'] 5 ⟨0, 0, 1⟩).1 =
      errorToken msgUntermEscape ⟨0, 1, 1⟩ ∧
    (sharedIsStringLiteralF ['\\', 'q'] 5 ⟨0, 0, 1⟩).1 =
      errorToken msgInvalidEscape ⟨0, 1, 1⟩ ∧
    (isStringLiteralF ['\\'] 5 ⟨0, 0, 1⟩).1 =
      errorToken msgInvalidEscape ⟨0, 1, 1⟩ :=
  ⟨c8_string_escape_errors.1 ['\\'] ⟨0, 0, 1⟩ 4 (by decide) (by decide),
   c8_string_escape_errors.2.1 ['\\', 'q'] ⟨0, 0, 1⟩ 4 (by decide) (by decide)
     (by decide),
   c8_string_escape_errors.2.2.1 ['\\'] ⟨0, 0, 1⟩ 4 (by decide) (by decide)⟩

/-- C8 counterexample: in the interpreter lexer a backslash immediately
followed by end-of-input yields the error message "Invalid escape
sequence.", not the claimed "Unterminated string after escape.". -/
theorem c8_interpreter_backslash_at_eof_message :
    (scanToken ['"', '\\'] ⟨0, 0, 1⟩).1.token = .ERROR ∧
    (scanToken ['"', '\\'] ⟨0, 0, 1⟩).1.start = .msg msgInvalidEscape ∧
    msgInvalidEscape ≠ msgUntermEscape := by decide

/-- C9 (amended): in the shared lexer a dispatched question mark maps to
the fixed single-character token `TOKEN_QUESTION`, never an error; the
interpreter lexer has no `'?'` case and reports "Unexpected character."
instead. -/
theorem c9_shared_question_token (src : List Char) (s : Scanner)
    (hq : byteAt src (sharedSkipWhitespace src s).current = '?') :
    (sharedScanToken src s).1.token = .QUESTION ∧
    (sharedScanToken src s).1.length = 1 ∧
    (sharedScanToken src s).1.start =
      .buf (sharedSkipWhitespace src s).current := by
  have hne : byteAt src (sharedSkipWhitespace src s).current ≠ NUL := by
    rw [hq]; decide
  simp only [sharedScanToken]
  rw [if_neg (show ¬ isAtEnd src
      { sharedSkipWhitespace src s with
        start := (sharedSkipWhitespace src s).current } = true by
    show ¬ (byteAt src (sharedSkipWhitespace src s).current == NUL) = true
    simpa using hne)]
  rw [show peek src
      { sharedSkipWhitespace src s with
        start := (sharedSkipWhitespace src s).current } = '?' from hq]
  rw [adv_of_ne src
    { sharedSkipWhitespace src s with
      start := (sharedSkipWhitespace src s).current } hne]
  rw [sharedDispatchOn]
  rw [if_neg (by decide), if_neg (by decide), if_neg (by decide),
    if_neg (by decide), if_neg (by decide), if_neg (by decide),
    if_neg (by decide), if_neg (by decide), if_neg (by decide),
    if_pos (rfl : ('?' : Char) = '?')]
  refine ⟨rfl, ?_, rfl⟩
  show (sharedSkipWhitespace src s).current + 1 -
    (sharedSkipWhitespace src s).current = 1
  omega

/-- C9 witness: the shared lexer applied to the buffer "?". -/
theorem c9_witness :
    (sharedScanToken ['?'] ⟨0, 0, 1⟩).1.token = .QUESTION ∧
    (sharedScanToken ['?'] ⟨0, 0, 1⟩).1.length = 1 ∧
    (sharedScanToken ['?'] ⟨0, 0, 1⟩).1.start =
      .buf (sharedSkipWhitespace ['?'] ⟨0, 0, 1⟩).current :=
  c9_shared_question_token ['?'] ⟨0, 0, 1⟩ (by decide)

/-- C9 counterexample: the interpreter lexer's dispatch switch has no `'?'`
case, so `'?'` falls into the default branch and `scanToken` returns an
error token "Unexpected character.", refuting the claim for the
interpreter snapshot. -/
theorem c9_interpreter_question_mark_is_error :
    (scanToken ['?'] ⟨0, 0, 1⟩).1.token = .ERROR ∧
    (scanToken ['?'] ⟨0, 0, 1⟩).1.start = .msg msgUnexpected := by decide

/-- C2: every `scanToken` call on the interpreter lexer either returns an
Eof token or strictly advances the cursor by at least one byte, on every
path including all error paths; hence repeatedly requesting tokens on any
finite buffer reaches Eof after finitely many calls. -/
theorem c2_progress_and_termination (src : List Char) (s : Scanner)
    (h : s.current ≤ src.length) :
    ((scanToken src s).1.token = .EOF ∨
      s.current + 1 ≤ (scanToken src s).2.current) ∧
    ∃ n, (scanToken src (scanState src n s)).1.token = .EOF := by
  constructor
  · by_cases he : (scanToken src s).1.token = .EOF
    · exact Or.inl he
    · right
      have h1 := scanToken_progress src s he
      have h2 := skipWhitespace_mono src s
      omega
  · have main : ∀ m : Nat, ∀ t : Scanner, t.current ≤ src.length →
        src.length - t.current ≤ m →
        ∃ n, (scanToken src (scanState src n t)).1.token = .EOF := by
      intro m
      induction m with
      | zero =>
        intro t ht hm
        refine ⟨0, ?_⟩
        show (scanToken src t).1.token = .EOF
        rw [scanToken_eof_iff src t]
        apply byteAt_eq_nul_of_le
        have h1 := skipWhitespace_mono src t
        omega
      | succ m ih =>
        intro t ht hm
        by_cases he : (scanToken src t).1.token = .EOF
        · exact ⟨0, he⟩
        · have hp := scanToken_progress src t he
          have hmn := skipWhitespace_mono src t
          have hb := scanToken_bound src t ht
          obtain ⟨n, hn⟩ := ih (scanToken src t).2 hb (by omega)
          refine ⟨n + 1, ?_⟩
          show (scanToken src (scanState src n (scanToken src t).2)).1.token = .EOF
          exact hn
    exact main (src.length - s.current) s h (Nat.le_refl _)

/-- C2 witness: the theorem applied to the concrete buffer "ab". -/
theorem c2_witness :
    ((scanToken ['a', 'b'] ⟨0, 0, 1⟩).1.token = .EOF ∨
      (0 : Nat) + 1 ≤ (scanToken ['a', 'b'] ⟨0, 0, 1⟩).2.current) ∧
    ∃ n, (scanToken ['a', 'b']
      (scanState ['a', 'b'] n ⟨0, 0, 1⟩)).1.token = .EOF :=
  c2_progress_and_termination ['a', 'b'] ⟨0, 0, 1⟩ (by decide)

/-- C3: once `scanToken` has returned an Eof token, the next call returns
the very same Eof token with the scanner state unchanged, and the cursor
never moves past the buffer terminator. -/
theorem c3_eof_idempotent (src : List Char) (s : Scanner)
    (h : (scanToken src s).1.token = .EOF) :
    scanToken src (scanToken src s).2 = scanToken src s ∧
      (s.current ≤ src.length → (scanToken src s).2.current ≤ src.length) := by
  have he := scanToken_eof_state src s h
  refine ⟨?_, fun hb => scanToken_bound src s hb⟩
  rw [he]
  show scanToken src (eofState src s) =
    (createToken .EOF (eofState src s), eofState src s)
  have hNul : byteAt src (eofState src s).current = NUL := by
    rw [eofState_current]
    exact (scanToken_eof_iff src s).mp h
  have hskip : skipWhitespace src (eofState src s) = eofState src s :=
    skipWhitespace_nul src _ hNul
  have hfix : eofState src (eofState src s) = eofState src s := by
    have h1 : eofState src (eofState src s) =
        { skipWhitespace src (eofState src s) with
          start := (skipWhitespace src (eofState src s)).current } := rfl
    rw [h1, hskip]
    exact scanner_start_id _ rfl
  rcases scanToken_cases src (eofState src s) with ⟨h2, he2⟩ | ⟨h2, he2⟩
  · rw [he2, hfix]
  · rw [hskip] at h2
    exact absurd hNul h2

/-- C3 witness: the theorem applied to the empty buffer, whose first token
is already Eof. -/
theorem c3_witness :
    scanToken [] (scanToken [] ⟨0, 0, 1⟩).2 = scanToken [] ⟨0, 0, 1⟩ ∧
      ((0 : Nat) ≤ ([] : List Char).length →
        (scanToken [] ⟨0, 0, 1⟩).2.current ≤ ([] : List Char).length) :=
  c3_eof_idempotent [] ⟨0, 0, 1⟩ (by decide)

/-- C4 (amended): across a `scanToken` call the line counter is
monotonically non-decreasing and grows by at most the number of consumed
newline bytes; it grows by exactly that number whenever the dispatched
significant character is not a single quote — on the character-literal
path a raw newline consumed as the literal's content does not increment
the counter. -/
theorem c4_line_counting (src : List Char) (s : Scanner) :
    s.line ≤ (scanToken src s).2.line ∧
    (scanToken src s).2.line ≤
      s.line + countNL src s.current (scanToken src s).2.current ∧
    (byteAt src (skipWhitespace src s).current ≠ '\'' →
      (scanToken src s).2.line =
        s.line + countNL src s.current (scanToken src s).2.current) :=
  ⟨scanToken_lineMono src s, scanToken_lineLe src s,
    fun hq => scanToken_lineExact src s hq⟩

/-- C4 witness: the theorem applied to the buffer "\nx" (a skipped newline
followed by an identifier), discharging the non-quote hypothesis. -/
theorem c4_witness :
    (scanToken ['\n', 'x'] ⟨0, 0, 1⟩).2.line =
      1 + countNL ['\n', 'x'] 0 (scanToken ['\n', 'x'] ⟨0, 0, 1⟩).2.current :=
  (c4_line_counting ['\n', 'x'] ⟨0, 0, 1⟩).2.2 (by decide)

/-- C4 counterexample: scanning the character literal `'<newline>'`
consumes one newline byte but leaves the line counter at 1, refuting
"incremented exactly once for each consumed newline on every path
(including char literals)". -/
theorem c4_char_literal_newline_uncounted :
    (scanToken ['\'', '\n', '\''] ⟨0, 0, 1⟩).1.token = .CHAR_LITERAL ∧
    (scanToken ['\'', '\n', '\''] ⟨0, 0, 1⟩).2.current = 3 ∧
    countNL ['\'', '\n', '\''] 0 3 = 1 ∧
    (scanToken ['\'', '\n', '\''] ⟨0, 0, 1⟩).2.line = 1 ∧
    ¬ ((scanToken ['\'', '\n', '\''] ⟨0, 0, 1⟩).2.line =
      1 + countNL ['\'', '\n', '\''] 0
        (scanToken ['\'', '\n', '\''] ⟨0, 0, 1⟩).2.current) := by decide

/-- C5 (amended): every token carries the scanner's line counter at the
moment the token is completed; when the consumed region contains no
newline this equals the line counter at the token's first character.  A
string literal spanning several lines therefore reports the line of its
closing quote, not of its opening quote. -/
theorem c5_token_line (src : List Char) (s : Scanner) :
    (scanToken src s).1.line = (scanToken src s).2.line ∧
    (countNL src (skipWhitespace src s).current (scanToken src s).2.current = 0 →
      (scanToken src s).1.line = (skipWhitespace src s).line) := by
  refine ⟨scanToken_tokLine src s, fun hz => ?_⟩
  rw [scanToken_tokLine src s]
  rcases scanToken_cases src s with ⟨h, he⟩ | ⟨h, he⟩
  · rw [he, eofState_line]
  · rw [he] at hz ⊢
    have hok := (dispatchOn_master src
      (byteAt src (skipWhitespace src s).current) (dispatchState src s)).1
    have h1 := hok.lineMono
    have h2 := hok.lineLe
    have h3 := hok.mono
    simp only [dispatchState_line, dispatchState_current] at h1 h2 h3
    have hsplit := countNL_split src (skipWhitespace src s).current
      ((skipWhitespace src s).current + 1)
      (dispatchOn src (byteAt src (skipWhitespace src s).current)
        (dispatchState src s)).2.current (Nat.le_succ _) h3
    omega

/-- C5 witness: the theorem applied to the buffer "x". -/
theorem c5_witness :
    (scanToken ['x'] ⟨0, 0, 1⟩).1.line = (scanToken ['x'] ⟨0, 0, 1⟩).2.line ∧
    (scanToken ['x'] ⟨0, 0, 1⟩).1.line =
      (skipWhitespace ['x'] ⟨0, 0, 1⟩).line :=
  ⟨(c5_token_line ['x'] ⟨0, 0, 1⟩).1, (c5_token_line ['x'] ⟨0, 0, 1⟩).2 (by decide)⟩

/-- C5 counterexample: the string literal `"a<newline>b"` spans two source
lines; its token reports line 2 (the closing quote) while the token's
first character lies on line 1, refuting "line equals the 1-based line of
the token's first character". -/
theorem c5_multiline_string_reports_closing_line :
    (scanToken ['"', 'a', '\n', 'b', '"'] ⟨0, 0, 1⟩).1.token = .STRING_LITERAL ∧
    (scanToken ['"', 'a', '\n', 'b', '"'] ⟨0, 0, 1⟩).1.line = 2 ∧
    (skipWhitespace ['"', 'a', '\n', 'b', '"'] ⟨0, 0, 1⟩).line = 1 ∧
    ¬ ((scanToken ['"', 'a', '\n', 'b', '"'] ⟨0, 0, 1⟩).1.line =
      (skipWhitespace ['"', 'a', '\n', 'b', '"'] ⟨0, 0, 1⟩).line) := by decide

/-- C6: maximal munch on the operator dispatcher — each two-character
operator whose first character is also a valid one-character operator is
scanned as one length-2 token followed directly by Eof, never as two
shorter tokens. -/
theorem c6_maximal_munch :
    ((scanToken ['=', '='] ⟨0, 0, 1⟩).1.token = .EQUAL_EQUAL ∧
      (scanToken ['=', '='] ⟨0, 0, 1⟩).1.length = 2 ∧
      (scanToken ['=', '='] (scanToken ['=', '='] ⟨0, 0, 1⟩).2).1.token = .EOF) ∧
    ((scanToken ['<', '<'] ⟨0, 0, 1⟩).1.token = .LEFT_SHIFT ∧
      (scanToken ['<', '<'] ⟨0, 0, 1⟩).1.length = 2 ∧
      (scanToken ['<', '<'] (scanToken ['<', '<'] ⟨0, 0, 1⟩).2).1.token = .EOF) ∧
    ((scanToken ['-', '>'] ⟨0, 0, 1⟩).1.token = .ARROW ∧
      (scanToken ['-', '>'] ⟨0, 0, 1⟩).1.length = 2 ∧
      (scanToken ['-', '>'] (scanToken ['-', '>'] ⟨0, 0, 1⟩).2).1.token = .EOF) ∧
    ((scanToken ['!', '='] ⟨0, 0, 1⟩).1.token = .BANG_EQUAL ∧
      (scanToken ['!', '='] (scanToken ['!', '='] ⟨0, 0, 1⟩).2).1.token = .EOF) ∧
    ((scanToken ['<', '='] ⟨0, 0, 1⟩).1.token = .LESS_EQUAL ∧
      (scanToken ['<', '='] (scanToken ['<', '='] ⟨0, 0, 1⟩).2).1.token = .EOF) ∧
    ((scanToken ['>', '>'] ⟨0, 0, 1⟩).1.token = .RIGHT_SHIFT ∧
      (scanToken ['>', '>'] (scanToken ['>', '>'] ⟨0, 0, 1⟩).2).1.token = .EOF) ∧
    ((scanToken ['>', '='] ⟨0, 0, 1⟩).1.token = .GREATER_EQUAL ∧
      (scanToken ['>', '='] (scanToken ['>', '='] ⟨0, 0, 1⟩).2).1.token = .EOF) ∧
    ((scanToken ['+', '='] ⟨0, 0, 1⟩).1.token = .PLUS_EQUAL ∧
      (scanToken ['+', '='] (scanToken ['+', '='] ⟨0, 0, 1⟩).2).1.token = .EOF) ∧
    ((scanToken ['-', '='] ⟨0, 0, 1⟩).1.token = .MINUS_EQUAL ∧
      (scanToken ['-', '='] (scanToken ['-', '='] ⟨0, 0, 1⟩).2).1.token = .EOF) ∧
    ((scanToken ['*', '='] ⟨0, 0, 1⟩).1.token = .STAR_EQUAL ∧
      (scanToken ['*', '='] (scanToken ['*', '='] ⟨0, 0, 1⟩).2).1.token = .EOF) ∧
    ((scanToken ['/', '='] ⟨0, 0, 1⟩).1.token = .SLASH_EQUAL ∧
      (scanToken ['/', '='] (scanToken ['/', '='] ⟨0, 0, 1⟩).2).1.token = .EOF) ∧
    ((scanToken ['%', '='] ⟨0, 0, 1⟩).1.token = .PERCENT_EQUAL ∧
      (scanToken ['%', '='] (scanToken ['%', '='] ⟨0, 0, 1⟩).2).1.token = .EOF) ∧
    ((scanToken ['.', '.'] ⟨0, 0, 1⟩).1.token = .DOT_DOT ∧
      (scanToken ['.', '.'] (scanToken ['.', '.'] ⟨0, 0, 1⟩).2).1.token = .EOF) ∧
    ((scanToken ['&', '&'] ⟨0, 0, 1⟩).1.token = .AND ∧
      (scanToken ['&', '&'] (scanToken ['&', '&'] ⟨0, 0, 1⟩).2).1.token = .EOF) ∧
    ((scanToken ['|', '|'] ⟨0, 0, 1⟩).1.token = .OR ∧
      (scanToken ['|', '|'] (scanToken ['|', '|'] ⟨0, 0, 1⟩).2).1.token = .EOF) := by
  decide

end Rev
